import Mathlib

/-!
# Verification of the EVENTS-HIVE booking/inventory and ticket-verification core

Shallow embedding of the booking-inventory engine and the ticket verification
handler of the EVENTS-HIVE event-ticketing application:

* `createBooking` embeds `POST /api/bookings` (`src/app/api/bookings/route.ts`):
  field validation, event lookup (published only), per-item ticket-type
  validation and availability check, then a transaction creating the booking in
  `PENDING`, minting one ticket per unit and decrementing `remaining`
  (unconditionally, via Prisma `decrement`), followed by a separate update that
  transitions the booking to `CONFIRMED`.
* `cancelBooking` embeds the booking `PUT` handler: permission and status
  checks, then a transaction setting the status to `CANCELLED` and incrementing
  each ticket type's `remaining` by the booking's per-type ticket count.
* `verify` embeds `POST /api/tickets/verify`: lookup by id-or-number, booking
  status check, event date check, used-at check, optional commit that sets
  `usedAt` (an unconditional update, checked only at the earlier read).
* `adjustTotal` embeds the ticket-type `PUT` handler's quantity edit:
  `remaining` is incremented by `newQuantity - oldQuantity` with no guard.

Database rows are lists of records; Prisma `findUnique`/`findFirst` become
first-match lookups and `update` becomes a map over the matching id. Fresh ids
(cuid/nanoid) are modelled by a monotone `nextId` counter in the state.
JavaScript falsiness of absent string fields is modelled with `Option`/empty
strings. Interleavings of concurrent requests are modelled by exposing each
handler's separate database round-trips as separate functions
(`verifyRead`/`commitPhase`, `createBookingInterrupted`).
-/

/-- An event row: the fields the booking/verification core reads. -/
structure EventRow where
  id : Nat
  creatorId : Nat
  startDate : Nat
  isPublished : Bool
deriving DecidableEq, Repr

/-- A ticket-type row: `quantity` is total capacity, `remaining` the inventory
counter (Prisma `Int`, so it may in principle go negative). -/
structure TicketType where
  id : Nat
  eventId : Nat
  price : Int
  quantity : Int
  remaining : Int
deriving DecidableEq, Repr

/-- Booking status as in the Prisma schema. -/
inductive BookingStatus where
  | pending
  | confirmed
  | cancelled
  | refunded
deriving DecidableEq, Repr

/-- A booking row. -/
structure Booking where
  id : Nat
  userId : Nat
  eventId : Nat
  attendeeName : String
  email : String
  phone : String
  totalAmount : Int
  status : BookingStatus
  paymentId : Option Nat
deriving DecidableEq, Repr

/-- A ticket row; `usedAt` is the one-way scan marker. -/
structure Ticket where
  id : Nat
  ticketNumber : Nat
  bookingId : Nat
  ticketTypeId : Nat
  usedAt : Option Nat
deriving DecidableEq, Repr

/-- The database state. `nextId` models the fresh-identifier supply
(cuid/nanoid); every id handed out is `nextId` at allocation time. -/
structure DBState where
  events : List EventRow
  ticketTypes : List TicketType
  bookings : List Booking
  tickets : List Ticket
  nextId : Nat
deriving DecidableEq, Repr

instance {ε α : Type} [DecidableEq ε] [DecidableEq α] : DecidableEq (Except ε α) := fun x y =>
  match x, y with
  | .ok a, .ok b =>
    if h : a = b then .isTrue (by rw [h]) else .isFalse (fun hc => h (Except.ok.inj hc))
  | .error a, .error b =>
    if h : a = b then .isTrue (by rw [h]) else .isFalse (fun hc => h (Except.error.inj hc))
  | .ok _, .error _ => .isFalse Except.noConfusion
  | .error _, .ok _ => .isFalse Except.noConfusion

/-- `prisma.event.findUnique({where: {id, isPublished: true}})`. -/
def evPubOf : List EventRow → Nat → Option EventRow
  | [], _ => none
  | e :: rest, i => if e.id = i ∧ e.isPublished = true then some e else evPubOf rest i

/-- `prisma.event.findUnique({where: {id}})` (used through relation includes). -/
def evOf : List EventRow → Nat → Option EventRow
  | [], _ => none
  | e :: rest, i => if e.id = i then some e else evOf rest i

/-- `prisma.ticketType.findUnique({where: {id}})`. -/
def ttOf : List TicketType → Nat → Option TicketType
  | [], _ => none
  | tt :: rest, i => if tt.id = i then some tt else ttOf rest i

/-- `prisma.booking.findUnique({where: {id}})`. -/
def bkOf : List Booking → Nat → Option Booking
  | [], _ => none
  | b :: rest, i => if b.id = i then some b else bkOf rest i

/-- `prisma.ticket.findFirst({where: {OR: [{id: ticketId || ""},
{ticketNumber: ticketNumber || ""}]}})`: absent identifiers (`none`) default to
the empty string, which matches no row. -/
def findTicketByReq : List Ticket → Option Nat → Option Nat → Option Ticket
  | [], _, _ => none
  | t :: rest, tid?, tn? =>
    if tid? = some t.id ∨ tn? = some t.ticketNumber then some t
    else findTicketByReq rest tid? tn?

/-- `prisma.ticketType.update({where: {id}})`: rewrite the matching rows. -/
def updateTT : List TicketType → Nat → (TicketType → TicketType) → List TicketType
  | [], _, _ => []
  | tt :: rest, i, f => (if tt.id = i then f tt else tt) :: updateTT rest i f

/-- `prisma.booking.update({where: {id}})`. -/
def updateBk : List Booking → Nat → (Booking → Booking) → List Booking
  | [], _, _ => []
  | b :: rest, i, f => (if b.id = i then f b else b) :: updateBk rest i f

/-- `prisma.ticket.update({where: {id}})`. -/
def updateTk : List Ticket → Nat → (Ticket → Ticket) → List Ticket
  | [], _, _ => []
  | t :: rest, i, f => (if t.id = i then f t else t) :: updateTk rest i f

/-! ## Booking creation (`POST /api/bookings`) -/

/-- One entry of the request's `tickets` array. An absent or empty
`ticketTypeId` (JavaScript-falsy) is `none`. -/
structure BookingItemReq where
  ticketTypeId : Option Nat
  quantity : Int
deriving DecidableEq, Repr

/-- The booking request body. Absent `eventId` is `none`; absent attendee
fields are the empty string (both JavaScript-falsy). -/
structure BookingReq where
  eventId : Option Nat
  name : String
  email : String
  phone : String
  tickets : List BookingItemReq
deriving DecidableEq, Repr

/-- A validated item as accumulated in the handler's `ticketItems` array. -/
structure TicketItem where
  ticketTypeId : Nat
  quantity : Int
  price : Int
deriving DecidableEq, Repr

/-- Errors of the booking handlers (HTTP error responses). -/
inductive BookingErr where
  | missingFields
  | eventNotFound
  | invalidTicketInfo
  | ticketTypeNotFound
  | insufficientTickets
deriving DecidableEq, Repr

/-- One iteration of the handler's validation loop over `data.tickets`: reject
a falsy `ticketTypeId` or a `quantity` that is falsy or `< 1`, reject an
unknown ticket type, reject `remaining < quantity`; otherwise produce the
`ticketItems` entry. -/
def checkItem (tts : List TicketType) (it : BookingItemReq) :
    Except BookingErr TicketItem :=
  match it.ticketTypeId with
  | none => .error .invalidTicketInfo
  | some ttid =>
    if it.quantity < 1 then .error .invalidTicketInfo
    else
      match ttOf tts ttid with
      | none => .error .ticketTypeNotFound
      | some tt =>
        if tt.remaining < it.quantity then .error .insufficientTickets
        else .ok ⟨ttid, it.quantity, tt.price⟩

/-- The handler's validation loop, short-circuiting at the first failing item
and accumulating `totalAmount` and the `ticketItems` list. The reads all see
the same pre-transaction state. -/
def validateItems (tts : List TicketType) : List BookingItemReq →
    Except BookingErr (Int × List TicketItem)
  | [] => .ok (0, [])
  | it :: rest =>
    match checkItem tts it with
    | .error e => .error e
    | .ok item =>
      match validateItems tts rest with
      | .error e => .error e
      | .ok (amt, items) =>
        .ok (item.price * item.quantity + amt, item :: items)

/-- Everything the handler does before its transaction: field presence check,
published-event lookup, item validation. No database write happens here. -/
def bookingValidate (s : DBState) (req : BookingReq) :
    Except BookingErr (Nat × Int × List TicketItem) :=
  match req.eventId with
  | none => .error .missingFields
  | some eid =>
    if req.name = "" ∨ req.email = "" ∨ req.phone = "" ∨ req.tickets = [] then
      .error .missingFields
    else
      match evPubOf s.events eid with
      | none => .error .eventNotFound
      | some _ =>
        match validateItems s.ticketTypes req.tickets with
        | .error e => .error e
        | .ok (amt, items) => .ok (eid, amt, items)

/-- `for (let i = 0; i < item.quantity; i++) tx.ticket.create(...)`: mint `n`
tickets for a booking, drawing ids (and ticket numbers) from the id supply. -/
def mintTickets (bid ttid : Nat) : Nat → Nat → List Ticket
  | 0, _ => []
  | n + 1, nid =>
    { id := nid, ticketNumber := nid, bookingId := bid, ticketTypeId := ttid,
      usedAt := none } :: mintTickets bid ttid n (nid + 1)

/-- One iteration of the transaction's item loop: create the item's tickets,
then `tx.ticketType.update({data: {remaining: {decrement: quantity}}})` — the
decrement is unconditional. -/
def processItem (bid : Nat) (s : DBState) (it : TicketItem) : DBState :=
  let minted := mintTickets bid it.ticketTypeId it.quantity.toNat s.nextId
  { s with
    tickets := s.tickets ++ minted
    nextId := s.nextId + it.quantity.toNat
    ticketTypes := updateTT s.ticketTypes it.ticketTypeId
      (fun tt => { tt with remaining := tt.remaining - it.quantity }) }

/-- The `prisma.$transaction` body: create the booking row in `PENDING`, then
run the item loop. Returns the new booking id and the post-transaction state. -/
def txnCreateBooking (s : DBState) (uid eid : Nat) (nm em ph : String)
    (amt : Int) (items : List TicketItem) : Nat × DBState :=
  let bid := s.nextId
  let b : Booking :=
    { id := bid, userId := uid, eventId := eid, attendeeName := nm, email := em,
      phone := ph, totalAmount := amt, status := .pending, paymentId := none }
  let s1 : DBState := { s with bookings := s.bookings ++ [b], nextId := s.nextId + 1 }
  (bid, items.foldl (processItem bid) s1)

/-- The separate `prisma.booking.update` that follows the transaction: set the
status to `CONFIRMED` and attach a fresh `paymentId`. -/
def confirmBooking (s : DBState) (bid : Nat) : DBState :=
  { s with
    bookings := updateBk s.bookings bid
      (fun b => { b with status := .confirmed, paymentId := some s.nextId })
    nextId := s.nextId + 1 }

/-- The full `POST /api/bookings` handler (email dispatch elided: its failure
is swallowed and it writes no database state). -/
def createBooking (s : DBState) (uid : Nat) (req : BookingReq) :
    Except BookingErr Nat × DBState :=
  match bookingValidate s req with
  | .error e => (.error e, s)
  | .ok (eid, amt, items) =>
    let (bid, s1) := txnCreateBooking s uid eid req.name req.email req.phone amt items
    (.ok bid, confirmBooking s1 bid)

/-- The same handler halted right after its transaction committed and before
the separate `CONFIRMED` update ran (the state the database passes through,
and keeps if the process fails between the two awaits). -/
def createBookingInterrupted (s : DBState) (uid : Nat) (req : BookingReq) :
    Except BookingErr Nat × DBState :=
  match bookingValidate s req with
  | .error e => (.error e, s)
  | .ok (eid, amt, items) =>
    let (bid, s1) := txnCreateBooking s uid eid req.name req.email req.phone amt items
    (.ok bid, s1)

/-! ## Booking cancellation (the booking `PUT` handler) -/

/-- Errors of the cancellation handler. -/
inductive CancelErr where
  | invalidAction
  | notFound
  | forbidden
  | alreadyCancelled
deriving DecidableEq, Repr

/-- Tickets of one booking (`include: {tickets: ...}` on the booking read). -/
def ticketsOfBooking : List Ticket → Nat → List Ticket
  | [], _ => []
  | t :: rest, bid =>
    if t.bookingId = bid then t :: ticketsOfBooking rest bid
    else ticketsOfBooking rest bid

/-- One step of the handler's `reduce` grouping tickets by ticket type:
`acc[typeId] = (acc[typeId] || 0) + 1`. -/
def bumpCount : List (Nat × Nat) → Nat → List (Nat × Nat)
  | [], ty => [(ty, 1)]
  | (a, n) :: rest, ty =>
    if a = ty then (a, n + 1) :: rest else (a, n) :: bumpCount rest ty

/-- The per-type ticket counts of a ticket list, in first-occurrence order. -/
def ticketTypeCounts (ts : List Ticket) : List (Nat × Nat) :=
  ts.foldl (fun acc t => bumpCount acc t.ticketTypeId) []

/-- The handler's loop over `Object.entries(ticketTypeCounts)`:
`tx.ticketType.update({data: {remaining: {increment: count}}})` per type. -/
def applyReleases : DBState → List (Nat × Nat) → DBState
  | s, [] => s
  | s, (ty, c) :: rest =>
    let tts := updateTT s.ticketTypes ty
      (fun tt => { tt with remaining := tt.remaining + (c : Int) })
    applyReleases { s with ticketTypes := tts } rest

/-- The booking `PUT` handler: cancel a booking. `admin` is the result of
`checkPermission("admin:access")` for the actor. -/
def cancelBooking (s : DBState) (bid actorId : Nat) (admin : Bool)
    (action : String) : Except CancelErr Unit × DBState :=
  if action ≠ "cancel" then (.error .invalidAction, s)
  else
    match bkOf s.bookings bid with
    | none => (.error .notFound, s)
    | some b =>
      if b.userId ≠ actorId ∧ admin = false then (.error .forbidden, s)
      else if b.status = .cancelled then (.error .alreadyCancelled, s)
      else
        let bks := updateBk s.bookings bid (fun bb => { bb with status := .cancelled })
        let s1 : DBState := { s with bookings := bks }
        let counts := ticketTypeCounts (ticketsOfBooking s.tickets bid)
        (.ok (), applyReleases s1 counts)

/-! ## Ticket verification (`POST /api/tickets/verify`) -/

/-- The verification request body as sent by the scanner page: the handler
reads only `ticketId`, `ticketNumber` and `verifyOnly`; the scanner also sends
`eventId`, which the handler never reads. -/
structure VerifyReq where
  ticketId : Option Nat
  ticketNumber : Option Nat
  verifyOnly : Bool
  eventId : Option Nat
deriving DecidableEq, Repr

/-- The verification responses. -/
inductive VerifyOutcome where
  | missingIdentifier
  | notFound
  | wrongStatus (st : BookingStatus)
  | eventPassed
  | alreadyUsed (t : Nat)
  | valid
deriving DecidableEq, Repr

/-- Result of the handler's read-and-check phase. -/
inductive VerifyCheck where
  | failed (o : VerifyOutcome)
  | passed (t : Ticket)
deriving DecidableEq, Repr

/-- The handler's reads and checks, in source order: identifier presence,
ticket lookup by id-or-number, booking status must be `CONFIRMED` (echoing the
actual status), event start date must not be before `now`, `usedAt` must be
null (echoing the prior value). Relation includes are modelled as lookups; a
dangling relation is reported as not-found. -/
def verifyRead (s : DBState) (req : VerifyReq) (now : Nat) : VerifyCheck :=
  if req.ticketId = none ∧ req.ticketNumber = none then .failed .missingIdentifier
  else
    match findTicketByReq s.tickets req.ticketId req.ticketNumber with
    | none => .failed .notFound
    | some t =>
      match bkOf s.bookings t.bookingId with
      | none => .failed .notFound
      | some b =>
        if b.status ≠ .confirmed then .failed (.wrongStatus b.status)
        else
          match evOf s.events b.eventId with
          | none => .failed .notFound
          | some ev =>
            if ev.startDate < now then .failed .eventPassed
            else
              match t.usedAt with
              | some u => .failed (.alreadyUsed u)
              | none => .passed t

/-- `prisma.ticket.update({where: {id}, data: {usedAt: new Date()}})` — the
write carries no `usedAt`-is-null condition. -/
def verifyWrite (s : DBState) (tid : Nat) (now : Nat) : DBState :=
  { s with tickets := updateTk s.tickets tid (fun t => { t with usedAt := some now }) }

/-- The commit phase: return on a failed check; return `valid` without writing
when `verifyOnly`; otherwise mark the ticket used and return `valid`. -/
def commitPhase (s : DBState) (c : VerifyCheck) (verifyOnly : Bool) (now : Nat) :
    VerifyOutcome × DBState :=
  match c with
  | .failed o => (o, s)
  | .passed t => if verifyOnly then (.valid, s) else (.valid, verifyWrite s t.id now)

/-- The full `POST /api/tickets/verify` handler run without interleaving. -/
def verify (s : DBState) (req : VerifyReq) (now : Nat) : VerifyOutcome × DBState :=
  commitPhase s (verifyRead s req now) req.verifyOnly now

/-- Two verify calls whose database round-trips interleave as
read₁, read₂, write₁, write₂ — realizable because the handler's read and its
`usedAt` write are separate awaited statements. -/
def verifyPairInterleaved (s : DBState) (r1 r2 : VerifyReq) (n1 n2 : Nat) :
    VerifyOutcome × VerifyOutcome × DBState :=
  let c1 := verifyRead s r1 n1
  let c2 := verifyRead s r2 n2
  let (o1, s1) := commitPhase s c1 r1.verifyOnly n1
  let (o2, s2) := commitPhase s1 c2 r2.verifyOnly n2
  (o1, o2, s2)

/-! ## Ticket-type capacity edit (the ticket-type `PUT` handler) -/

/-- Errors of the capacity-edit handler. -/
inductive AdjustErr where
  | notFound
  | forbidden
deriving DecidableEq, Repr

/-- The ticket-type `PUT` handler restricted to its quantity edit (name,
description and price edits are orthogonal row rewrites). `editPerm` is
`checkPermission("events:edit")`, `admin` is `checkPermission("admin:access")`.
A JavaScript-falsy `data.quantity` (absent or `0`) leaves `quantity` alone and
makes the difference `0`; otherwise `remaining` is incremented by
`newQuantity - oldQuantity` with no failure or clamping. -/
def adjustTotal (s : DBState) (ttid actorId : Nat) (editPerm admin : Bool)
    (newQuantity : Int) : Except AdjustErr Unit × DBState :=
  if editPerm = false then (.error .forbidden, s)
  else
    match ttOf s.ticketTypes ttid with
    | none => (.error .notFound, s)
    | some tt =>
      let isCreator : Bool :=
        match evOf s.events tt.eventId with
        | some ev => ev.creatorId = actorId
        | none => false
      if isCreator = false ∧ admin = false then (.error .forbidden, s)
      else
        let diff : Int := if newQuantity ≠ 0 then newQuantity - tt.quantity else 0
        let tts := updateTT s.ticketTypes ttid
          (fun t => { t with
            quantity := if newQuantity ≠ 0 then newQuantity else t.quantity,
            remaining := t.remaining + diff })
        (.ok (), { s with ticketTypes := tts })

/-! ## Derived counts and invariants -/

/-- Whether a booking id refers to a non-`CANCELLED` booking. -/
def isActive (bks : List Booking) (bid : Nat) : Bool :=
  match bkOf bks bid with
  | some b => decide (b.status ≠ .cancelled)
  | none => false

/-- Number of tickets of a given type whose booking is not cancelled. -/
def activeCount (bks : List Booking) : List Ticket → Nat → Nat
  | [], _ => 0
  | t :: rest, i =>
    (if t.ticketTypeId = i ∧ isActive bks t.bookingId = true then 1 else 0) +
      activeCount bks rest i

/-- Number of tickets of a given type (all rows). -/
def countT : List Ticket → Nat → Nat
  | [], _ => 0
  | t :: rest, i => (if t.ticketTypeId = i then 1 else 0) + countT rest i

/-- Number of tickets of a given type belonging to a given booking. -/
def countBt : List Ticket → Nat → Nat → Nat
  | [], _, _ => 0
  | t :: rest, i, bid =>
    (if t.ticketTypeId = i ∧ t.bookingId = bid then 1 else 0) + countBt rest i bid

/-- Total requested quantity for one ticket type across validated items. -/
def sumQ : List TicketItem → Nat → Int
  | [], _ => 0
  | it :: rest, i => (if it.ticketTypeId = i then it.quantity else 0) + sumQ rest i

/-- Total minted ticket count for one ticket type across validated items. -/
def sumQN : List TicketItem → Nat → Nat
  | [], _ => 0
  | it :: rest, i => (if it.ticketTypeId = i then it.quantity.toNat else 0) + sumQN rest i

/-- Value of a key in a per-type count list (summing duplicate keys). -/
def valueOf : List (Nat × Nat) → Nat → Nat
  | [], _ => 0
  | (a, c) :: rest, i => (if a = i then c else 0) + valueOf rest i

/-- Conservation for tickets of non-cancelled bookings: for every ticket-type
row, its active ticket count plus `remaining` equals `quantity`. -/
def Conserv (s : DBState) : Prop :=
  ∀ tt ∈ s.ticketTypes, (activeCount s.bookings s.tickets tt.id : Int) + tt.remaining = tt.quantity

/-- Every allocated id is below the fresh-id counter. -/
def WFIds (s : DBState) : Prop :=
  (∀ b ∈ s.bookings, b.id < s.nextId) ∧ (∀ t ∈ s.tickets, t.bookingId < s.nextId)

/-- The reachable-state invariant: conservation plus id freshness. -/
def InvS (s : DBState) : Prop :=
  Conserv s ∧ WFIds s

/-- Lower inventory bound. -/
def RemNonneg (s : DBState) : Prop :=
  ∀ tt ∈ s.ticketTypes, 0 ≤ tt.remaining

/-- Upper inventory bound. -/
def RemLeQty (s : DBState) : Prop :=
  ∀ tt ∈ s.ticketTypes, tt.remaining ≤ tt.quantity

/-- Ticket-type rows have pairwise-distinct ids (database primary key). -/
def TTUnique (s : DBState) : Prop :=
  s.ticketTypes.Pairwise (fun a b => a.id ≠ b.id)

instance (s : DBState) : Decidable (Conserv s) := by
  unfold Conserv
  infer_instance

instance (s : DBState) : Decidable (WFIds s) := by
  unfold WFIds
  infer_instance

instance (s : DBState) : Decidable (InvS s) := by
  unfold InvS
  infer_instance

instance (s : DBState) : Decidable (RemNonneg s) := by
  unfold RemNonneg
  infer_instance

instance (s : DBState) : Decidable (RemLeQty s) := by
  unfold RemLeQty
  infer_instance

instance (s : DBState) : Decidable (TTUnique s) := by
  unfold TTUnique
  infer_instance

/-- An item the validation loop must reject: falsy ticket-type id, quantity
below one, unknown ticket type, or insufficient remaining inventory. -/
def badItem (tts : List TicketType) (it : BookingItemReq) : Bool :=
  match it.ticketTypeId with
  | none => true
  | some ttid =>
    if it.quantity < 1 then true
    else
      match ttOf tts ttid with
      | none => true
      | some tt => decide (tt.remaining < it.quantity)

/-- The operations of the booking/inventory core that C9 quantifies over. -/
inductive CoreOp where
  | create (uid : Nat) (req : BookingReq)
  | cancel (bid actorId : Nat) (admin : Bool)

/-- Apply one core operation, keeping only the state. -/
def applyOp (s : DBState) : CoreOp → DBState
  | .create uid req => (createBooking s uid req).2
  | .cancel bid actorId admin => (cancelBooking s bid actorId admin "cancel").2

/-- Run a sequence of core operations. -/
def runOps (s : DBState) (ops : List CoreOp) : DBState :=
  ops.foldl applyOp s

/-! ## Lookup and update lemmas -/

theorem ttOf_id {l : List TicketType} {i : Nat} {tt : TicketType}
    (h : ttOf l i = some tt) : tt.id = i := by
  induction l with
  | nil => simp [ttOf] at h
  | cons hd rest ih =>
    rw [ttOf] at h
    split at h
    · cases h; assumption
    · exact ih h

theorem ttOf_map (g : TicketType → TicketType) (hg : ∀ tt, (g tt).id = tt.id)
    (l : List TicketType) (i : Nat) : ttOf (l.map g) i = (ttOf l i).map g := by
  induction l with
  | nil => rfl
  | cons hd rest ih =>
    rw [List.map_cons, ttOf, ttOf, hg hd]
    split
    · rfl
    · exact ih

theorem updateTT_eq_map (l : List TicketType) (a : Nat) (f : TicketType → TicketType) :
    updateTT l a f = l.map (fun tt => if tt.id = a then f tt else tt) := by
  induction l with
  | nil => rfl
  | cons hd rest ih => rw [updateTT, List.map_cons, ih]

theorem bkOf_id {l : List Booking} {i : Nat} {b : Booking}
    (h : bkOf l i = some b) : b.id = i := by
  induction l with
  | nil => simp [bkOf] at h
  | cons hd rest ih =>
    rw [bkOf] at h
    split at h
    · cases h; assumption
    · exact ih h

theorem bkOf_updateBk (f : Booking → Booking) (hf : ∀ b, (f b).id = b.id)
    (l : List Booking) (a i : Nat) :
    bkOf (updateBk l a f) i =
      if a = i then (bkOf l i).map f else bkOf l i := by
  induction l with
  | nil => simp [updateBk, bkOf]
  | cons hd rest ih =>
    by_cases hh : hd.id = a <;> by_cases hi : hd.id = i
    · have hai : a = i := hh.symm.trans hi
      subst hai
      simp [updateBk, bkOf, hh, hf]
    · have hai : a ≠ i := fun hc => hi (hh.trans hc)
      simp [updateBk, bkOf, hh, hf, hi, hai, ih]
    · have hai : a ≠ i := fun hc => hh (hi.trans hc.symm)
      have hia : ¬ i = a := fun hc => hh (hi.trans hc)
      simp [updateBk, bkOf, hh, hi, hai, hia]
    · simp [updateBk, bkOf, hh, hi, ih]

theorem bkOf_append (l₁ l₂ : List Booking) (i : Nat) :
    bkOf (l₁ ++ l₂) i =
      match bkOf l₁ i with
      | some b => some b
      | none => bkOf l₂ i := by
  induction l₁ with
  | nil => simp [bkOf]
  | cons hd rest ih =>
    rw [List.cons_append, bkOf, bkOf]
    split
    · rfl
    · exact ih

theorem bkOf_none_of_lt {l : List Booking} {n : Nat}
    (h : ∀ b ∈ l, b.id < n) : bkOf l n = none := by
  induction l with
  | nil => rfl
  | cons hd rest ih =>
    rw [bkOf]
    have hne : ¬ hd.id = n := Nat.ne_of_lt (h hd (List.mem_cons_self hd rest))
    simp only [hne, if_false]
    exact ih (fun b hb => h b (List.mem_cons_of_mem hd hb))

theorem findTicketByReq_map (g : Ticket → Ticket)
    (hg : ∀ t, (g t).id = t.id ∧ (g t).ticketNumber = t.ticketNumber)
    (l : List Ticket) (tid? tn? : Option Nat) :
    findTicketByReq (l.map g) tid? tn? = (findTicketByReq l tid? tn?).map g := by
  induction l with
  | nil => rfl
  | cons hd rest ih =>
    rw [List.map_cons, findTicketByReq, findTicketByReq, (hg hd).1, (hg hd).2]
    split
    · rfl
    · exact ih

theorem updateTk_eq_map (l : List Ticket) (a : Nat) (f : Ticket → Ticket) :
    updateTk l a f = l.map (fun t => if t.id = a then f t else t) := by
  induction l with
  | nil => rfl
  | cons hd rest ih => rw [updateTk, List.map_cons, ih]

theorem findTicketByReq_none_none (l : List Ticket) :
    findTicketByReq l none none = none := by
  induction l with
  | nil => rfl
  | cons hd rest ih => rw [findTicketByReq]; simp [ih]

/-! ## Counting lemmas -/

theorem activeCount_append (bks : List Booking) (l₁ l₂ : List Ticket) (i : Nat) :
    activeCount bks (l₁ ++ l₂) i = activeCount bks l₁ i + activeCount bks l₂ i := by
  induction l₁ with
  | nil => simp [activeCount]
  | cons hd rest ih => rw [List.cons_append, activeCount, activeCount, ih]; omega

theorem countBt_append (l₁ l₂ : List Ticket) (i bid : Nat) :
    countBt (l₁ ++ l₂) i bid = countBt l₁ i bid + countBt l₂ i bid := by
  induction l₁ with
  | nil => simp [countBt]
  | cons hd rest ih => rw [List.cons_append, countBt, countBt, ih]; omega

theorem countT_append (l₁ l₂ : List Ticket) (i : Nat) :
    countT (l₁ ++ l₂) i = countT l₁ i + countT l₂ i := by
  induction l₁ with
  | nil => simp [countT]
  | cons hd rest ih => rw [List.cons_append, countT, countT, ih]; omega

theorem mintTickets_bookingId {bid ttid n nid : Nat} {t : Ticket}
    (h : t ∈ mintTickets bid ttid n nid) : t.bookingId = bid := by
  induction n generalizing nid with
  | zero => simp [mintTickets] at h
  | succ m ih =>
    rw [mintTickets] at h
    rcases List.mem_cons.mp h with h | h
    · subst h; rfl
    · exact ih h

theorem activeCount_mint (bks : List Booking) (bid ttid : Nat)
    (hb : isActive bks bid = true) (n nid i : Nat) :
    activeCount bks (mintTickets bid ttid n nid) i = if ttid = i then n else 0 := by
  induction n generalizing nid with
  | zero => simp [mintTickets, activeCount]
  | succ m ih =>
    rw [mintTickets, activeCount, ih]
    by_cases h : ttid = i <;> simp [h, hb] <;> omega

theorem countBt_mint (bid ttid n nid i bid' : Nat) :
    countBt (mintTickets bid ttid n nid) i bid' =
      if ttid = i ∧ bid = bid' then n else 0 := by
  induction n generalizing nid with
  | zero => simp [mintTickets, countBt]
  | succ m ih =>
    rw [mintTickets, countBt, ih]
    by_cases h1 : ttid = i <;> by_cases h2 : bid = bid' <;> simp [h1, h2] <;> omega

theorem countBt_eq_zero {l : List Ticket} {bid : Nat}
    (h : ∀ t ∈ l, t.bookingId ≠ bid) (i : Nat) : countBt l i bid = 0 := by
  induction l with
  | nil => rfl
  | cons hd rest ih =>
    rw [countBt]
    have h1 : hd.bookingId ≠ bid := h hd (List.mem_cons_self hd rest)
    have h2 := ih (fun t ht => h t (List.mem_cons_of_mem hd ht))
    simp [h1, h2]

theorem activeCount_congr {bks₁ bks₂ : List Booking} {ts : List Ticket}
    (h : ∀ t ∈ ts, isActive bks₁ t.bookingId = isActive bks₂ t.bookingId) (i : Nat) :
    activeCount bks₁ ts i = activeCount bks₂ ts i := by
  induction ts with
  | nil => rfl
  | cons hd rest ih =>
    rw [activeCount, activeCount, h hd (List.mem_cons_self hd rest),
      ih (fun t ht => h t (List.mem_cons_of_mem hd ht))]

theorem countBt_le_activeCount {bks : List Booking} {bid : Nat}
    (hb : isActive bks bid = true) (ts : List Ticket) (i : Nat) :
    countBt ts i bid ≤ activeCount bks ts i := by
  induction ts with
  | nil => exact Nat.le_refl 0
  | cons hd rest ih =>
    rw [countBt, activeCount]
    by_cases h1 : hd.ticketTypeId = i
    · by_cases h2 : hd.bookingId = bid
      · simp only [h1, h2, hb, and_self, if_pos, true_and, if_true]
        omega
      · have : ¬ (hd.ticketTypeId = i ∧ hd.bookingId = bid) := fun hc => h2 hc.2
        simp only [this, if_false]
        omega
    · have hc1 : ¬ (hd.ticketTypeId = i ∧ hd.bookingId = bid) := fun hc => h1 hc.1
      have hc2 : ¬ (hd.ticketTypeId = i ∧ isActive bks hd.bookingId = true) := fun hc => h1 hc.1
      simp only [hc1, hc2, if_false]
      omega

/-! ## isActive lemmas -/

theorem isActive_updateBk_cancel (bks : List Booking) (bid x : Nat) :
    isActive (updateBk bks bid (fun bb => { bb with status := .cancelled })) x =
      if bid = x then false else isActive bks x := by
  rw [isActive,
    bkOf_updateBk (fun bb => { bb with status := .cancelled }) (fun _ => rfl)]
  by_cases h : bid = x
  · simp only [h, if_pos]
    cases bkOf bks x <;> simp [isActive]
  · simp only [h, if_neg, isActive]
    rfl

theorem isActive_updateBk_confirm {bks : List Booking} {bid : Nat} {b : Booking}
    (hb : bkOf bks bid = some b) (hs : b.status ≠ .cancelled) (p : Option Nat) (x : Nat) :
    isActive (updateBk bks bid (fun bb => { bb with status := .confirmed, paymentId := p })) x =
      isActive bks x := by
  rw [isActive,
    bkOf_updateBk (fun bb => { bb with status := .confirmed, paymentId := p }) (fun _ => rfl)]
  by_cases h : bid = x
  · subst h
    rw [hb]
    simp [isActive, hb, hs]
  · simp only [h, if_neg, isActive]
    rfl

theorem isActive_append_fresh {bks : List Booking} {b0 : Booking} {x : Nat}
    (h : x ≠ b0.id) : isActive (bks ++ [b0]) x = isActive bks x := by
  rw [isActive, bkOf_append, isActive]
  cases hbk : bkOf bks x
  · have : ¬ b0.id = x := fun hc => h hc.symm
    simp [bkOf, this]
  · simp

theorem isActive_append_new {bks : List Booking} {b0 : Booking}
    (h : bkOf bks b0.id = none) :
    isActive (bks ++ [b0]) b0.id = decide (b0.status ≠ .cancelled) := by
  rw [isActive, bkOf_append, h]
  simp [bkOf]

/-! ## Shape of the booking transaction -/

theorem txnFold_bookings (bid : Nat) (s : DBState) (items : List TicketItem) :
    (items.foldl (processItem bid) s).bookings = s.bookings := by
  induction items generalizing s with
  | nil => rfl
  | cons hd rest ih => rw [List.foldl_cons, ih]; rfl

theorem txnFold_events (bid : Nat) (s : DBState) (items : List TicketItem) :
    (items.foldl (processItem bid) s).events = s.events := by
  induction items generalizing s with
  | nil => rfl
  | cons hd rest ih => rw [List.foldl_cons, ih]; rfl

theorem txnFold_nextId_le (bid : Nat) (s : DBState) (items : List TicketItem) :
    s.nextId ≤ (items.foldl (processItem bid) s).nextId := by
  induction items generalizing s with
  | nil => exact Nat.le_refl _
  | cons hd rest ih =>
    rw [List.foldl_cons]
    refine Nat.le_trans ?_ (ih (processItem bid s hd))
    exact Nat.le_add_right _ _

theorem txnFold_mem_tickets {bid : Nat} {s : DBState} {items : List TicketItem}
    {t : Ticket} (h : t ∈ (items.foldl (processItem bid) s).tickets) :
    t ∈ s.tickets ∨ t.bookingId = bid := by
  induction items generalizing s with
  | nil => exact Or.inl h
  | cons hd rest ih =>
    rw [List.foldl_cons] at h
    rcases ih h with h1 | h1
    · rcases List.mem_append.mp h1 with h2 | h2
      · exact Or.inl h2
      · exact Or.inr (mintTickets_bookingId h2)
    · exact Or.inr h1

theorem sub_sumQ_nil (l : List TicketType) :
    l.map (fun tt => { tt with remaining := tt.remaining - sumQ [] tt.id }) = l := by
  induction l with
  | nil => rfl
  | cons hd rest ih =>
    rw [List.map_cons, ih]
    congr 1
    simp [sumQ]

theorem txnFold_ticketTypes (bid : Nat) (s : DBState) (items : List TicketItem) :
    (items.foldl (processItem bid) s).ticketTypes =
      s.ticketTypes.map (fun tt => { tt with remaining := tt.remaining - sumQ items tt.id }) := by
  induction items generalizing s with
  | nil => rw [List.foldl_nil, sub_sumQ_nil]
  | cons hd rest ih =>
    rw [List.foldl_cons, ih]
    show (updateTT s.ticketTypes hd.ticketTypeId _).map _ = _
    rw [updateTT_eq_map, List.map_map]
    refine List.map_congr_left (fun tt _ => ?_)
    by_cases h : tt.id = hd.ticketTypeId
    · have h' : hd.ticketTypeId = tt.id := h.symm
      simp only [Function.comp_apply, if_pos h, sumQ, h', if_true, TicketType.mk.injEq,
        eq_self_iff_true, true_and, and_true]
      ring
    · have h' : ¬ hd.ticketTypeId = tt.id := fun hc => h hc.symm
      simp only [Function.comp_apply, if_neg h, sumQ, h', if_false, TicketType.mk.injEq,
        eq_self_iff_true, true_and, and_true]
      ring

theorem txnFold_activeCount {bks : List Booking} {bid : Nat}
    (hb : isActive bks bid = true) (s : DBState) (items : List TicketItem) (i : Nat) :
    activeCount bks (items.foldl (processItem bid) s).tickets i =
      activeCount bks s.tickets i + sumQN items i := by
  induction items generalizing s with
  | nil => simp [sumQN]
  | cons hd rest ih =>
    rw [List.foldl_cons, ih]
    show activeCount bks (s.tickets ++ mintTickets bid hd.ticketTypeId hd.quantity.toNat s.nextId) i + _ = _
    rw [activeCount_append, activeCount_mint bks bid hd.ticketTypeId hb, sumQN]
    by_cases h : hd.ticketTypeId = i <;> simp [h] <;> omega

theorem txnFold_countBt {bid : Nat} (s : DBState) (items : List TicketItem)
    (i bid' : Nat) :
    countBt (items.foldl (processItem bid) s).tickets i bid' =
      countBt s.tickets i bid' + (if bid = bid' then sumQN items i else 0) := by
  induction items generalizing s with
  | nil => simp [sumQN]
  | cons hd rest ih =>
    rw [List.foldl_cons, ih]
    show countBt (s.tickets ++ mintTickets bid hd.ticketTypeId hd.quantity.toNat s.nextId) i bid' + _ = _
    rw [countBt_append, countBt_mint, sumQN]
    by_cases h1 : hd.ticketTypeId = i <;> by_cases h2 : bid = bid' <;>
      simp [h1, h2] <;> omega

/-! ## Shape of the cancellation transaction -/

theorem applyReleases_frame (s : DBState) (cs : List (Nat × Nat)) :
    (applyReleases s cs).bookings = s.bookings ∧
    (applyReleases s cs).tickets = s.tickets ∧
    (applyReleases s cs).events = s.events ∧
    (applyReleases s cs).nextId = s.nextId := by
  induction cs generalizing s with
  | nil => exact ⟨rfl, rfl, rfl, rfl⟩
  | cons hd rest ih =>
    obtain ⟨ty, c⟩ := hd
    exact ih _

theorem add_valueOf_nil (l : List TicketType) :
    l.map (fun tt => { tt with remaining := tt.remaining + (valueOf [] tt.id : Int) }) = l := by
  induction l with
  | nil => rfl
  | cons hd rest ih =>
    rw [List.map_cons, ih]
    congr 1
    simp [valueOf]

theorem applyReleases_ticketTypes (s : DBState) (cs : List (Nat × Nat)) :
    (applyReleases s cs).ticketTypes =
      s.ticketTypes.map
        (fun tt => { tt with remaining := tt.remaining + (valueOf cs tt.id : Int) }) := by
  induction cs generalizing s with
  | nil => rw [applyReleases, add_valueOf_nil]
  | cons hd rest ih =>
    obtain ⟨ty, c⟩ := hd
    rw [applyReleases, ih]
    show (updateTT s.ticketTypes ty _).map _ = _
    rw [updateTT_eq_map, List.map_map]
    refine List.map_congr_left (fun tt _ => ?_)
    by_cases h : tt.id = ty
    · have h' : ty = tt.id := h.symm
      simp only [Function.comp_apply, if_pos h, valueOf, h', if_true, TicketType.mk.injEq,
        eq_self_iff_true, true_and, and_true]
      push_cast
      ring
    · have h' : ¬ ty = tt.id := fun hc => h hc.symm
      simp only [Function.comp_apply, if_neg h, valueOf, h', if_false, TicketType.mk.injEq,
        eq_self_iff_true, true_and, and_true]
      push_cast
      ring

theorem valueOf_bumpCount (cs : List (Nat × Nat)) (ty i : Nat) :
    valueOf (bumpCount cs ty) i = valueOf cs i + (if ty = i then 1 else 0) := by
  induction cs with
  | nil => simp [bumpCount, valueOf]
  | cons hd rest ih =>
    obtain ⟨a, n⟩ := hd
    rw [bumpCount]
    by_cases h : a = ty
    · subst h
      rw [if_pos rfl, valueOf, valueOf]
      by_cases h2 : a = i <;> simp [h2] <;> omega
    · rw [if_neg h, valueOf, valueOf, ih]
      omega

theorem valueOf_countsFold (acc : List (Nat × Nat)) (ts : List Ticket) (i : Nat) :
    valueOf (ts.foldl (fun a t => bumpCount a t.ticketTypeId) acc) i =
      valueOf acc i + countT ts i := by
  induction ts generalizing acc with
  | nil => simp [countT]
  | cons hd rest ih =>
    rw [List.foldl_cons, ih, valueOf_bumpCount, countT]
    by_cases h : hd.ticketTypeId = i <;> simp [h] <;> omega

theorem valueOf_ticketTypeCounts (ts : List Ticket) (i : Nat) :
    valueOf (ticketTypeCounts ts) i = countT ts i := by
  rw [ticketTypeCounts, valueOf_countsFold]
  simp [valueOf]

theorem countT_ticketsOfBooking (ts : List Ticket) (bid i : Nat) :
    countT (ticketsOfBooking ts bid) i = countBt ts i bid := by
  induction ts with
  | nil => rfl
  | cons hd rest ih =>
    rw [ticketsOfBooking, countBt]
    by_cases h2 : hd.bookingId = bid
    · rw [if_pos h2, countT, ih]
      by_cases h1 : hd.ticketTypeId = i <;> simp [h1, h2] <;> omega
    · have : ¬ (hd.ticketTypeId = i ∧ hd.bookingId = bid) := fun hc => h2 hc.2
      rw [if_neg h2, ih]
      simp [this]

theorem mem_bumpCount {cs : List (Nat × Nat)} {ty : Nat} {p : Nat × Nat}
    (hp : p ∈ bumpCount cs ty) : p ∈ cs ∨ p.1 = ty := by
  induction cs with
  | nil =>
    rw [bumpCount] at hp
    rw [List.mem_singleton.mp hp]
    exact Or.inr rfl
  | cons hd rest ih =>
    obtain ⟨a, n⟩ := hd
    rw [bumpCount] at hp
    by_cases hty : a = ty
    · rw [if_pos hty] at hp
      rcases List.mem_cons.mp hp with h | h
      · rw [h]; exact Or.inr hty
      · exact Or.inl (List.mem_cons_of_mem _ h)
    · rw [if_neg hty] at hp
      rcases List.mem_cons.mp hp with h | h
      · rw [h]; exact Or.inl (List.mem_cons_self _ _)
      · rcases ih h with h1 | h1
        · exact Or.inl (List.mem_cons_of_mem _ h1)
        · exact Or.inr h1

theorem bumpCount_keys_distinct {cs : List (Nat × Nat)} (ty : Nat)
    (h : cs.Pairwise (fun a b => a.1 ≠ b.1)) :
    (bumpCount cs ty).Pairwise (fun a b => a.1 ≠ b.1) := by
  induction cs with
  | nil => simp [bumpCount]
  | cons hd rest ih =>
    obtain ⟨a, n⟩ := hd
    rw [List.pairwise_cons] at h
    rw [bumpCount]
    by_cases hty : a = ty
    · rw [if_pos hty, List.pairwise_cons]
      exact ⟨h.1, h.2⟩
    · rw [if_neg hty, List.pairwise_cons]
      constructor
      · intro p hp
        rcases mem_bumpCount hp with h1 | h1
        · exact h.1 p h1
        · intro hc
          exact hty (hc.trans h1)
      · exact ih h.2

/-! ## Validation inversions -/

theorem checkItem_ok {tts : List TicketType} {it : BookingItemReq} {item : TicketItem}
    (h : checkItem tts it = .ok item) :
    it.ticketTypeId = some item.ticketTypeId ∧ item.quantity = it.quantity ∧
      1 ≤ item.quantity ∧
      ∃ tt, ttOf tts item.ticketTypeId = some tt ∧ item.quantity ≤ tt.remaining := by
  rw [checkItem] at h
  split at h
  · exact Except.noConfusion h
  next ttid hhd =>
    split at h
    · exact Except.noConfusion h
    next hq =>
      split at h
      · exact Except.noConfusion h
      next tt htt =>
        split at h
        · exact Except.noConfusion h
        next hr =>
          cases h
          refine ⟨hhd, rfl, ?_, tt, htt, ?_⟩
          · show 1 ≤ it.quantity
            omega
          · show it.quantity ≤ tt.remaining
            omega

theorem checkItem_error_of_bad {tts : List TicketType} {it : BookingItemReq}
    (h : badItem tts it = true) : ∃ e, checkItem tts it = .error e := by
  rw [checkItem]
  split
  · exact ⟨.invalidTicketInfo, rfl⟩
  next ttid hhd =>
    split
    · exact ⟨.invalidTicketInfo, rfl⟩
    next hq =>
      split
      next htt =>
        exact ⟨.ticketTypeNotFound, rfl⟩
      next tt htt =>
        split
        next hr => exact ⟨.insufficientTickets, rfl⟩
        next hr =>
          exfalso
          simp only [badItem, hhd, hq, if_false, htt, decide_eq_true_iff] at h
          exact hr h

theorem validateItems_ok_mem {tts : List TicketType} {l : List BookingItemReq}
    {amt : Int} {items : List TicketItem}
    (h : validateItems tts l = .ok (amt, items)) :
    ∀ it ∈ items, 1 ≤ it.quantity ∧
      ∃ tt, ttOf tts it.ticketTypeId = some tt ∧ it.quantity ≤ tt.remaining := by
  induction l generalizing amt items with
  | nil =>
    rw [validateItems] at h
    cases h
    intro it hit
    exact absurd hit (List.not_mem_nil it)
  | cons hd rest ih =>
    rw [validateItems] at h
    split at h
    · exact Except.noConfusion h
    next item hchk =>
      split at h
      · exact Except.noConfusion h
      next amt' items' hrec =>
        cases h
        intro it hit
        rcases List.mem_cons.mp hit with h1 | h1
        · subst h1
          obtain ⟨-, -, hq, tt, htt, hr⟩ := checkItem_ok hchk
          exact ⟨hq, tt, htt, hr⟩
        · exact ih hrec it h1

theorem validateItems_ok_ids {tts : List TicketType} {l : List BookingItemReq}
    {amt : Int} {items : List TicketItem}
    (h : validateItems tts l = .ok (amt, items)) :
    items.map (fun it => some it.ticketTypeId) = l.map (fun it => it.ticketTypeId) := by
  induction l generalizing amt items with
  | nil =>
    rw [validateItems] at h
    cases h
    rfl
  | cons hd rest ih =>
    rw [validateItems] at h
    split at h
    · exact Except.noConfusion h
    next item hchk =>
      split at h
      · exact Except.noConfusion h
      next amt' items' hrec =>
        cases h
        rw [List.map_cons, List.map_cons, ih hrec, (checkItem_ok hchk).1]

theorem validateItems_error_of_bad {tts : List TicketType} {l : List BookingItemReq}
    (h : ∃ it ∈ l, badItem tts it = true) :
    ∃ e, validateItems tts l = .error e := by
  induction l with
  | nil =>
    obtain ⟨it, hit, -⟩ := h
    exact absurd hit (List.not_mem_nil it)
  | cons hd rest ih =>
    obtain ⟨it, hit, hbad⟩ := h
    rw [validateItems]
    rcases List.mem_cons.mp hit with h1 | h1
    · subst h1
      obtain ⟨e, he⟩ := checkItem_error_of_bad hbad
      rw [he]
      exact ⟨e, rfl⟩
    · cases hchk : checkItem tts hd with
      | error e => exact ⟨e, rfl⟩
      | ok item =>
        obtain ⟨e, he⟩ := ih ⟨it, h1, hbad⟩
        rw [he]
        exact ⟨e, rfl⟩

/-! ## sumQ lemmas -/

theorem sumQ_nonneg {items : List TicketItem}
    (h : ∀ it ∈ items, 0 ≤ it.quantity) (i : Nat) : 0 ≤ sumQ items i := by
  induction items with
  | nil => exact Int.le_refl 0
  | cons hd rest ih =>
    rw [sumQ]
    have h1 := h hd (List.mem_cons_self hd rest)
    have h2 := ih (fun it hit => h it (List.mem_cons_of_mem hd hit))
    by_cases hh : hd.ticketTypeId = i
    · rw [if_pos hh]; omega
    · rw [if_neg hh]; omega

theorem sumQ_eq_zero {items : List TicketItem} {i : Nat}
    (h : ∀ it ∈ items, it.ticketTypeId ≠ i) : sumQ items i = 0 := by
  induction items with
  | nil => rfl
  | cons hd rest ih =>
    rw [sumQ, if_neg (h hd (List.mem_cons_self hd rest)),
      ih (fun it hit => h it (List.mem_cons_of_mem hd hit))]
    omega

theorem sumQ_of_distinct {items : List TicketItem} {it : TicketItem}
    (hdist : items.Pairwise (fun a b => a.ticketTypeId ≠ b.ticketTypeId))
    (hit : it ∈ items) : sumQ items it.ticketTypeId = it.quantity := by
  induction items with
  | nil => exact absurd hit (List.not_mem_nil it)
  | cons hd rest ih =>
    rw [List.pairwise_cons] at hdist
    rcases List.mem_cons.mp hit with h1 | h1
    · subst h1
      rw [sumQ, if_pos rfl, sumQ_eq_zero (fun x hx => (hdist.1 x hx).symm)]
      omega
    · rw [sumQ, if_neg (fun hc => hdist.1 it h1 hc), ih hdist.2 h1]
      omega

theorem sumQN_cast {items : List TicketItem}
    (h : ∀ it ∈ items, 0 ≤ it.quantity) (i : Nat) :
    (sumQN items i : Int) = sumQ items i := by
  induction items with
  | nil => rfl
  | cons hd rest ih =>
    rw [sumQN, sumQ]
    have h1 := h hd (List.mem_cons_self hd rest)
    have h2 := ih (fun it hit => h it (List.mem_cons_of_mem hd hit))
    by_cases hh : hd.ticketTypeId = i
    · rw [if_pos hh, if_pos hh]
      push_cast
      rw [Int.toNat_of_nonneg h1, h2]
    · rw [if_neg hh, if_neg hh]
      push_cast
      rw [h2]

/-! ## Uniqueness helper -/

theorem ttOf_of_mem_unique {l : List TicketType} {tt : TicketType}
    (hdist : l.Pairwise (fun a b => a.id ≠ b.id)) (hm : tt ∈ l) :
    ttOf l tt.id = some tt := by
  induction l with
  | nil => exact absurd hm (List.not_mem_nil tt)
  | cons hd rest ih =>
    rw [List.pairwise_cons] at hdist
    rcases List.mem_cons.mp hm with h1 | h1
    · subst h1
      rw [ttOf, if_pos rfl]
    · rw [ttOf, if_neg (fun hc => hdist.1 tt h1 hc)]
      exact ih hdist.2 h1

theorem mem_updateBk {l : List Booking} {a : Nat} {f : Booking → Booking} {b' : Booking}
    (h : b' ∈ updateBk l a f) : ∃ b ∈ l, b' = if b.id = a then f b else b := by
  induction l with
  | nil => exact absurd h (List.not_mem_nil b')
  | cons hd rest ih =>
    rw [updateBk] at h
    rcases List.mem_cons.mp h with h1 | h1
    · exact ⟨hd, List.mem_cons_self hd rest, h1⟩
    · obtain ⟨b, hb, hbe⟩ := ih h1
      exact ⟨b, List.mem_cons_of_mem hd hb, hbe⟩

theorem bookingValidate_ok {s : DBState} {req : BookingReq} {eid : Nat}
    {amt : Int} {items : List TicketItem}
    (hv : bookingValidate s req = .ok (eid, amt, items)) :
    req.eventId = some eid ∧ validateItems s.ticketTypes req.tickets = .ok (amt, items) := by
  rw [bookingValidate] at hv
  split at hv
  · exact Except.noConfusion hv
  next eid' heid =>
    split at hv
    · exact Except.noConfusion hv
    · split at hv
      · exact Except.noConfusion hv
      · split at hv
        · exact Except.noConfusion hv
        next amt' items' hval =>
          cases hv
          exact ⟨heid, hval⟩

theorem ticketTypeCounts_keys_distinct (ts : List Ticket) :
    (ticketTypeCounts ts).Pairwise (fun a b => a.1 ≠ b.1) := by
  rw [ticketTypeCounts]
  have : ∀ acc : List (Nat × Nat), acc.Pairwise (fun a b => a.1 ≠ b.1) →
      (ts.foldl (fun a t => bumpCount a t.ticketTypeId) acc).Pairwise
        (fun a b => a.1 ≠ b.1) := by
    induction ts with
    | nil => intro acc hacc; exact hacc
    | cons hd rest ih =>
      intro acc hacc
      rw [List.foldl_cons]
      exact ih _ (bumpCount_keys_distinct _ hacc)
  exact this [] List.Pairwise.nil

/-! ## Preservation of the reachable-state invariant -/

theorem createBooking_preserves_InvS (s : DBState) (uid : Nat) (req : BookingReq)
    (hinv : InvS s) : InvS (createBooking s uid req).2 := by
  obtain ⟨hcons, hbk, htk⟩ := hinv
  cases hv : bookingValidate s req with
  | error e =>
    rw [createBooking, hv]
    exact ⟨hcons, hbk, htk⟩
  | ok res =>
    obtain ⟨eid, amt, items⟩ := res
    obtain ⟨-, hval⟩ := bookingValidate_ok hv
    have hq : ∀ it ∈ items, 0 ≤ it.quantity := by
      intro it hit
      have := (validateItems_ok_mem hval it hit).1
      omega
    rw [createBooking, hv]
    show InvS (confirmBooking (items.foldl (processItem s.nextId)
      ⟨s.events, s.ticketTypes, s.bookings ++
        [⟨s.nextId, uid, eid, req.name, req.email, req.phone, amt, .pending, none⟩],
        s.tickets, s.nextId + 1⟩) s.nextId)
    set b0 : Booking :=
      ⟨s.nextId, uid, eid, req.name, req.email, req.phone, amt, .pending, none⟩ with hb0def
    set s1 : DBState :=
      ⟨s.events, s.ticketTypes, s.bookings ++ [b0], s.tickets, s.nextId + 1⟩ with hs1def
    set sF : DBState := items.foldl (processItem s.nextId) s1 with hsFdef
    have hFbk : sF.bookings = s.bookings ++ [b0] := txnFold_bookings s.nextId s1 items
    have hFtt : sF.ticketTypes =
        s.ticketTypes.map (fun tt => { tt with remaining := tt.remaining - sumQ items tt.id }) :=
      txnFold_ticketTypes s.nextId s1 items
    have hFnext : s.nextId + 1 ≤ sF.nextId := txnFold_nextId_le s.nextId s1 items
    have hb0of : bkOf (s.bookings ++ [b0]) s.nextId = some b0 := by
      rw [bkOf_append, bkOf_none_of_lt hbk]
      simp [bkOf, hb0def]
    have hpend_active : isActive (s.bookings ++ [b0]) s.nextId = true := by
      rw [isActive, hb0of]
      simp [hb0def]
    set cf : Booking → Booking :=
      fun b => { b with status := .confirmed, paymentId := some sF.nextId } with hcfdef
    have hconf_active : ∀ x,
        isActive (updateBk (s.bookings ++ [b0]) s.nextId cf) x =
          isActive (s.bookings ++ [b0]) x := by
      intro x
      exact isActive_updateBk_confirm hb0of (by simp [hb0def]) (some sF.nextId) x
    have hconf_bid : isActive (updateBk (s.bookings ++ [b0]) s.nextId cf) s.nextId = true := by
      rw [hconf_active]
      exact hpend_active
    have hold_active : ∀ t ∈ s.tickets,
        isActive (updateBk (s.bookings ++ [b0]) s.nextId cf) t.bookingId =
          isActive s.bookings t.bookingId := by
      intro t ht
      rw [hconf_active]
      exact isActive_append_fresh (Nat.ne_of_lt (htk t ht))
    refine ⟨?_, ?_, ?_⟩
    · -- conservation
      intro tt' hm
      have hm2 : tt' ∈ sF.ticketTypes := hm
      rw [hFtt] at hm2
      obtain ⟨tt, htt, htteq⟩ := List.mem_map.mp hm2
      have hid : tt'.id = tt.id := by rw [← htteq]
      have hqty : tt'.quantity = tt.quantity := by rw [← htteq]
      have hrem : tt'.remaining = tt.remaining - sumQ items tt.id := by rw [← htteq]
      show (activeCount (updateBk sF.bookings s.nextId cf) sF.tickets tt'.id : Int) +
        tt'.remaining = tt'.quantity
      rw [hFbk, hid, hqty, hrem]
      have hcount : activeCount (updateBk (s.bookings ++ [b0]) s.nextId cf) sF.tickets tt.id =
          activeCount (updateBk (s.bookings ++ [b0]) s.nextId cf) s.tickets tt.id +
            sumQN items tt.id := by
        have := txnFold_activeCount hconf_bid s1 items tt.id
        rw [hsFdef]
        exact this
      rw [hcount, activeCount_congr hold_active tt.id]
      have hcast : (sumQN items tt.id : Int) = sumQ items tt.id := sumQN_cast hq tt.id
      have hc := hcons tt htt
      push_cast
      rw [hcast]
      omega
    · -- booking ids fresh
      intro b' hb'
      have hb'2 : b' ∈ updateBk (s.bookings ++ [b0]) s.nextId cf := by
        rw [← hFbk]
        exact hb'
      obtain ⟨b, hbm, hbe⟩ := mem_updateBk hb'2
      have hb'id : b'.id = b.id := by
        rw [hbe]
        split
        · rfl
        · rfl
      show b'.id < sF.nextId + 1
      rcases List.mem_append.mp hbm with h1 | h1
      · have := hbk b h1
        omega
      · have : b = b0 := List.mem_singleton.mp h1
        rw [hb'id, this, hb0def]
        show s.nextId < sF.nextId + 1
        omega
    · -- ticket booking ids fresh
      intro t ht
      have ht2 : t ∈ sF.tickets := ht
      show t.bookingId < sF.nextId + 1
      rcases txnFold_mem_tickets ht2 with h1 | h1
      · have := htk t h1
        omega
      · rw [h1]
        omega

theorem cancelBooking_success {s : DBState} {bid actorId : Nat} {admin : Bool}
    {b : Booking} (hb : bkOf s.bookings bid = some b)
    (hperm : b.userId = actorId ∨ admin = true) (hst : b.status ≠ .cancelled) :
    (cancelBooking s bid actorId admin "cancel").1 = .ok () ∧
    (cancelBooking s bid actorId admin "cancel").2.bookings =
      updateBk s.bookings bid (fun bb => { bb with status := .cancelled }) ∧
    (cancelBooking s bid actorId admin "cancel").2.tickets = s.tickets ∧
    (cancelBooking s bid actorId admin "cancel").2.events = s.events ∧
    (cancelBooking s bid actorId admin "cancel").2.nextId = s.nextId ∧
    (cancelBooking s bid actorId admin "cancel").2.ticketTypes =
      s.ticketTypes.map
        (fun tt => { tt with remaining := tt.remaining + (countBt s.tickets tt.id bid : Int) }) := by
  have hact : ¬ ("cancel" ≠ "cancel") := fun hc => hc rfl
  have hp : ¬ (b.userId ≠ actorId ∧ admin = false) := by
    rcases hperm with h | h
    · exact fun hc => hc.1 h
    · exact fun hc => by rw [h] at hc; exact Bool.noConfusion hc.2
  rw [cancelBooking, if_neg hact, hb]
  simp only [if_neg hp, if_neg hst]
  set s1 : DBState :=
    { s with bookings := updateBk s.bookings bid (fun bb => { bb with status := .cancelled }) }
    with hs1
  set counts := ticketTypeCounts (ticketsOfBooking s.tickets bid) with hcounts
  obtain ⟨hrb, hrt, hre, hrn⟩ := applyReleases_frame s1 counts
  refine ⟨trivial, hrb, hrt, hre, hrn, ?_⟩
  rw [applyReleases_ticketTypes]
  refine List.map_congr_left (fun tt _ => ?_)
  rw [hcounts, valueOf_ticketTypeCounts, countT_ticketsOfBooking]

theorem cancelBooking_preserves_InvS (s : DBState) (bid actorId : Nat)
    (admin : Bool) (action : String) (hinv : InvS s) :
    InvS (cancelBooking s bid actorId admin action).2 := by
  obtain ⟨hcons, hbk, htk⟩ := hinv
  by_cases hact : action ≠ "cancel"
  · rw [cancelBooking, if_pos hact]
    exact ⟨hcons, hbk, htk⟩
  · rw [cancelBooking, if_neg hact]
    cases hb : bkOf s.bookings bid with
    | none => exact ⟨hcons, hbk, htk⟩
    | some b =>
      by_cases hp : b.userId ≠ actorId ∧ admin = false
      · simp only [if_pos hp]
        exact ⟨hcons, hbk, htk⟩
      · simp only [if_neg hp]
        by_cases hst : b.status = .cancelled
        · simp only [if_pos hst]
          exact ⟨hcons, hbk, htk⟩
        · simp only [if_neg hst]
          set s1 : DBState :=
            { s with bookings := updateBk s.bookings bid (fun bb => { bb with status := .cancelled }) }
            with hs1
          set counts := ticketTypeCounts (ticketsOfBooking s.tickets bid) with hcounts
          obtain ⟨hrb, hrt, hre, hrn⟩ := applyReleases_frame s1 counts
          have hactive : isActive s.bookings bid = true := by
            rw [isActive, hb]
            simp [hst]
          have hcount : ∀ i, activeCount s.bookings s.tickets i =
              activeCount (updateBk s.bookings bid (fun bb => { bb with status := .cancelled }))
                s.tickets i + countBt s.tickets i bid := by
            intro i
            induction s.tickets with
            | nil => rfl
            | cons hd rest ih =>
              rw [activeCount, activeCount, countBt, isActive_updateBk_cancel, ih]
              by_cases hbid : hd.bookingId = bid
              · by_cases hty : hd.ticketTypeId = i <;>
                  simp [hbid, hty, hactive] <;> omega
              · have h1 : ¬ bid = hd.bookingId := fun hc => hbid hc.symm
                by_cases hty : hd.ticketTypeId = i <;>
                  simp [h1, hbid, hty] <;> omega
          refine ⟨?_, ?_, ?_⟩
          · intro tt' hm
            have hm2 : tt' ∈ (applyReleases s1 counts).ticketTypes := hm
            rw [applyReleases_ticketTypes] at hm2
            obtain ⟨tt, htt, htteq⟩ := List.mem_map.mp hm2
            have htt' : tt ∈ s.ticketTypes := htt
            have hid : tt'.id = tt.id := by rw [← htteq]
            have hqty : tt'.quantity = tt.quantity := by rw [← htteq]
            have hrem : tt'.remaining = tt.remaining + (valueOf counts tt.id : Int) := by
              rw [← htteq]
            show (activeCount (applyReleases s1 counts).bookings
              (applyReleases s1 counts).tickets tt'.id : Int) + tt'.remaining = tt'.quantity
            rw [hrb, hrt, hid, hqty, hrem]
            rw [hcounts, valueOf_ticketTypeCounts, countT_ticketsOfBooking]
            have hc := hcons tt htt'
            have hcnt := hcount tt.id
            show (activeCount s1.bookings s.tickets tt.id : Int) +
              (tt.remaining + (countBt s.tickets tt.id bid : Int)) = tt.quantity
            have : activeCount s1.bookings s.tickets tt.id =
                activeCount (updateBk s.bookings bid (fun bb => { bb with status := .cancelled }))
                  s.tickets tt.id := rfl
            rw [this]
            omega
          · intro b' hb'
            have hb'2 : b' ∈ (applyReleases s1 counts).bookings := hb'
            rw [hrb] at hb'2
            obtain ⟨bb, hbm, hbe⟩ := mem_updateBk hb'2
            have hb'id : b'.id = bb.id := by
              rw [hbe]
              split
              · rfl
              · rfl
            show b'.id < (applyReleases s1 counts).nextId
            rw [hrn, hb'id]
            exact hbk bb hbm
          · intro t ht
            have ht2 : t ∈ (applyReleases s1 counts).tickets := ht
            rw [hrt] at ht2
            show t.bookingId < (applyReleases s1 counts).nextId
            rw [hrn]
            exact htk t ht2

/-! ## Verification inversions -/

theorem verifyRead_ne_failed_valid (s : DBState) (req : VerifyReq) (now : Nat) :
    verifyRead s req now ≠ .failed .valid := by
  rw [verifyRead]
  split
  · simp
  · split
    · simp
    · split
      · simp
      · split
        · simp
        · split
          · simp
          · split
            · simp
            · split
              · simp
              · simp

theorem verifyRead_passed_inv {s : DBState} {req : VerifyReq} {now : Nat}
    {t : Ticket} (h : verifyRead s req now = .passed t) :
    ¬ (req.ticketId = none ∧ req.ticketNumber = none) ∧
    findTicketByReq s.tickets req.ticketId req.ticketNumber = some t ∧
    t.usedAt = none ∧
    ∃ b, bkOf s.bookings t.bookingId = some b ∧ b.status = .confirmed ∧
      ∃ ev, evOf s.events b.eventId = some ev ∧ ¬ ev.startDate < now := by
  rw [verifyRead] at h
  split at h
  · exact VerifyCheck.noConfusion h
  next hmiss =>
    split at h
    · exact VerifyCheck.noConfusion h
    next t0 hfind =>
      split at h
      · exact VerifyCheck.noConfusion h
      next b hb =>
        split at h
        · exact VerifyCheck.noConfusion h
        next hstat =>
          split at h
          · exact VerifyCheck.noConfusion h
          next ev hev =>
            split at h
            · exact VerifyCheck.noConfusion h
            next hdate =>
              split at h
              · exact VerifyCheck.noConfusion h
              next hused =>
                cases h
                rw [not_not] at hstat
                exact ⟨hmiss, hfind, hused, b, hb, hstat, ev, hev, hdate⟩

/-! ## Concrete fixtures for witnesses and counterexamples -/

/-- A published event starting at time 100. -/
def wEvent : EventRow := ⟨1, 7, 100, true⟩

/-- A ticket type with capacity 1 and 1 remaining. -/
def wType : TicketType := ⟨2, 1, 10, 1, 1⟩

/-- A confirmed booking by user 5. -/
def wBooking : Booking := ⟨3, 5, 1, "n", "e", "p", 10, .confirmed, none⟩

/-- A never-scanned ticket of the confirmed booking. -/
def wTicket : Ticket := ⟨4, 4, 3, 2, none⟩

/-- A small consistent database state. -/
def wState : DBState := ⟨[wEvent], [wType], [wBooking], [wTicket], 10⟩

/-- A commit-mode verification request for `wTicket` at `wEvent`'s scanner. -/
def wReq : VerifyReq := ⟨some 4, none, false, some 1⟩

/-- A pending booking and its ticket, plus a used ticket, for exercising each
verification check. -/
def wBookingP : Booking := ⟨6, 5, 1, "n", "e", "p", 10, .pending, none⟩

/-- A ticket of the pending booking. -/
def wTicketP : Ticket := ⟨8, 8, 6, 2, none⟩

/-- An already-used ticket of the confirmed booking. -/
def wTicketU : Ticket := ⟨9, 9, 3, 2, some 40⟩

/-- A state exercising every verification failure. -/
def wStateC6 : DBState := ⟨[wEvent], [wType], [wBooking, wBookingP], [wTicket, wTicketP, wTicketU], 20⟩

/-! ## Claim theorems -/

/-- C1 counterexample: the commit step of `verify` is not an atomic
check-then-set — the `usedAt`-is-null check happens at the earlier read and the
write is unconditional — so two concurrent commit-mode verify calls on the same
never-scanned valid ticket, interleaved read-read-write-write, BOTH receive
`Valid`, contradicting the claim that exactly one caller receives `Valid` and
every other receives `AlreadyUsed`. -/
theorem verify_concurrent_double_valid_counterexample :
    wTicket.usedAt = none ∧ wReq.verifyOnly = false ∧
    (verifyPairInterleaved wState wReq wReq 50 50).1 = .valid ∧
    (verifyPairInterleaved wState wReq wReq 50 50).2.1 = .valid := by
  decide

/-- C1 amended: the `usedAt` null check is performed at the read step and the
commit write sets `usedAt` unconditionally; consequently, under sequential
(non-interleaved) execution a commit-mode `verify` that returned `Valid` makes
every subsequent verify of the same ticket return `AlreadyUsed` (at most one
successful commit), but interleaved concurrent calls can each receive `Valid`
(see the counterexample). -/
theorem verify_sequential_single_use (s : DBState) (req : VerifyReq) (now : Nat)
    (hmode : req.verifyOnly = false) (hvalid : (verify s req now).1 = .valid) :
    verify ((verify s req now).2) req now = (.alreadyUsed now, (verify s req now).2) := by
  cases hc : verifyRead s req now with
  | failed o =>
    rw [verify, hc] at hvalid
    have ho : o = VerifyOutcome.valid := hvalid
    rw [ho] at hc
    exact absurd hc (verifyRead_ne_failed_valid s req now)
  | passed t =>
    obtain ⟨hmiss, hfind, hused, b, hb, hstat, ev, hev, hdate⟩ := verifyRead_passed_inv hc
    have hs' : (verify s req now).2 = verifyWrite s t.id now := by
      rw [verify, hc, commitPhase, hmode]
      simp
    rw [hs']
    have hg : ∀ tk : Ticket,
        ((fun tk => if tk.id = t.id then { tk with usedAt := some now } else tk) tk).id = tk.id ∧
        ((fun tk => if tk.id = t.id then { tk with usedAt := some now } else tk) tk).ticketNumber =
          tk.ticketNumber := by
      intro tk
      by_cases h : tk.id = t.id <;> simp [h]
    have hfind' : findTicketByReq (verifyWrite s t.id now).tickets req.ticketId req.ticketNumber
        = some { t with usedAt := some now } := by
      show findTicketByReq (updateTk s.tickets t.id (fun tk => { tk with usedAt := some now }))
        req.ticketId req.ticketNumber = _
      rw [updateTk_eq_map,
        findTicketByReq_map (fun tk => if tk.id = t.id then { tk with usedAt := some now } else tk)
          hg, hfind]
      simp
    have hread' : verifyRead (verifyWrite s t.id now) req now = .failed (.alreadyUsed now) := by
      rw [verifyRead, if_neg hmiss]
      have hbk2 : bkOf (verifyWrite s t.id now).bookings
          ({ t with usedAt := some now } : Ticket).bookingId = some b := hb
      have hev2 : evOf (verifyWrite s t.id now).events b.eventId = some ev := hev
      simp only [hfind', hbk2, hev2, hstat, if_neg hdate]
      simp
    rw [verify, hread']
    rfl

/-- C1 amended witness at a concrete never-scanned valid ticket. -/
theorem verify_sequential_single_use_witness :
    wReq.verifyOnly = false ∧ (verify wState wReq 50).1 = .valid ∧
    verify ((verify wState wReq 50).2) wReq 50 =
      (.alreadyUsed 50, (verify wState wReq 50).2) :=
  ⟨by decide, by decide, verify_sequential_single_use wState wReq 50 (by decide) (by decide)⟩

/-- C6: the verification checks are applied in exactly this order, the first
failing check determining the result and short-circuiting the rest:
(1) ticket lookup by id-or-number, not found gives `NotFound`; (2) the booking
status must be `CONFIRMED`, else `WrongBookingStatus` echoing the actual status
(regardless of event date or prior use); (3) the event start time must not be
before the verification time, else `EventPassed` (regardless of prior use);
(4) `usedAt` must be null, else `AlreadyUsed` echoing the prior `usedAt`. -/
theorem verify_check_order (s : DBState) (req : VerifyReq) (now : Nat) :
    (¬ (req.ticketId = none ∧ req.ticketNumber = none) →
      findTicketByReq s.tickets req.ticketId req.ticketNumber = none →
      (verify s req now).1 = .notFound) ∧
    (∀ t b, findTicketByReq s.tickets req.ticketId req.ticketNumber = some t →
      bkOf s.bookings t.bookingId = some b → b.status ≠ .confirmed →
      (verify s req now).1 = .wrongStatus b.status) ∧
    (∀ t b ev, findTicketByReq s.tickets req.ticketId req.ticketNumber = some t →
      bkOf s.bookings t.bookingId = some b → b.status = .confirmed →
      evOf s.events b.eventId = some ev → ev.startDate < now →
      (verify s req now).1 = .eventPassed) ∧
    (∀ t b ev u, findTicketByReq s.tickets req.ticketId req.ticketNumber = some t →
      bkOf s.bookings t.bookingId = some b → b.status = .confirmed →
      evOf s.events b.eventId = some ev → ¬ ev.startDate < now → t.usedAt = some u →
      (verify s req now).1 = .alreadyUsed u) := by
  refine ⟨?_, ?_, ?_, ?_⟩
  · intro hmiss hfind
    rw [verify, verifyRead, if_neg hmiss, hfind]
    rfl
  · intro t b hfind hb hstat
    have hmiss : ¬ (req.ticketId = none ∧ req.ticketNumber = none) := by
      intro hc
      rw [hc.1, hc.2, findTicketByReq_none_none] at hfind
      exact Option.noConfusion hfind
    rw [verify, verifyRead, if_neg hmiss]
    simp only [hfind, hb, if_pos hstat]
    rfl
  · intro t b ev hfind hb hstat hev hdate
    have hmiss : ¬ (req.ticketId = none ∧ req.ticketNumber = none) := by
      intro hc
      rw [hc.1, hc.2, findTicketByReq_none_none] at hfind
      exact Option.noConfusion hfind
    have hstat' : ¬ (b.status ≠ .confirmed) := fun hc => hc hstat
    rw [verify, verifyRead, if_neg hmiss]
    simp only [hfind, hb, if_neg hstat', hev, if_pos hdate]
    rfl
  · intro t b ev u hfind hb hstat hev hdate hused
    have hmiss : ¬ (req.ticketId = none ∧ req.ticketNumber = none) := by
      intro hc
      rw [hc.1, hc.2, findTicketByReq_none_none] at hfind
      exact Option.noConfusion hfind
    have hstat' : ¬ (b.status ≠ .confirmed) := fun hc => hc hstat
    rw [verify, verifyRead, if_neg hmiss]
    simp only [hfind, hb, if_neg hstat', hev, if_neg hdate, hused]
    rfl

/-- C6 witness: each check exercised at a concrete state, in order. -/
theorem verify_check_order_witness :
    (verify wStateC6 ⟨some 99, none, false, none⟩ 50).1 = .notFound ∧
    (verify wStateC6 ⟨some 8, none, false, none⟩ 50).1 = .wrongStatus .pending ∧
    (verify wStateC6 ⟨some 4, none, false, none⟩ 200).1 = .eventPassed ∧
    (verify wStateC6 ⟨some 9, none, false, none⟩ 50).1 = .alreadyUsed 40 :=
  ⟨(verify_check_order wStateC6 ⟨some 99, none, false, none⟩ 50).1
      (by decide) (by decide),
    (verify_check_order wStateC6 ⟨some 8, none, false, none⟩ 50).2.1 wTicketP wBookingP
      (by decide) (by decide) (by decide),
    (verify_check_order wStateC6 ⟨some 4, none, false, none⟩ 200).2.2.1 wTicket wBooking wEvent
      (by decide) (by decide) (by decide) (by decide) (by decide),
    (verify_check_order wStateC6 ⟨some 9, none, false, none⟩ 50).2.2.2 wTicketU wBooking wEvent 40
      (by decide) (by decide) (by decide) (by decide) (by decide) (by decide)⟩

/-- C7: `verify` with `verifyOnly` (dry-run mode) never mutates anything — the
returned state is the input state, whatever the ticket and however often it is
called — and when all checks pass it returns `Valid`. -/
theorem verify_dryRun_no_mutation (s : DBState) (req : VerifyReq) (now : Nat)
    (h : req.verifyOnly = true) :
    (verify s req now).2 = s ∧
    (∀ t, verifyRead s req now = .passed t → (verify s req now).1 = .valid) ∧
    (∀ n, Nat.rec s (fun _ st => (verify st req now).2) n = s) := by
  have hframe : (verify s req now).2 = s := by
    rw [verify]
    cases hc : verifyRead s req now with
    | failed o => rfl
    | passed t =>
      rw [commitPhase, h]
      simp
  refine ⟨hframe, ?_, ?_⟩
  · intro t hp
    rw [verify, hp, commitPhase, h]
    simp
  · intro n
    induction n with
    | zero => rfl
    | succ m ih =>
      show (verify (Nat.rec s (fun _ st => (verify st req now).2) m) req now).2 = s
      rw [ih, hframe]

/-- C7 witness: a dry-run verify of a valid ticket returns `Valid` and leaves
the state untouched. -/
theorem verify_dryRun_no_mutation_witness :
    (⟨some 4, none, true, some 1⟩ : VerifyReq).verifyOnly = true ∧
    (verify wState ⟨some 4, none, true, some 1⟩ 50).2 = wState ∧
    (verify wState ⟨some 4, none, true, some 1⟩ 50).1 = .valid :=
  ⟨by decide, (verify_dryRun_no_mutation wState ⟨some 4, none, true, some 1⟩ 50 (by decide)).1,
    (verify_dryRun_no_mutation wState ⟨some 4, none, true, some 1⟩ 50 (by decide)).2.1
      wTicket (by decide)⟩

/-- C10: the verification handler never reads the request's `eventId`: the
result and any state mutation are identical for any two values of `eventId`,
so a valid ticket for one event is accepted and consumed at any other event's
scanner. -/
theorem verify_ignores_eventId (s : DBState) (tid tn : Option Nat) (vo : Bool)
    (e1 e2 : Option Nat) (now : Nat) :
    verify s ⟨tid, tn, vo, e1⟩ now = verify s ⟨tid, tn, vo, e2⟩ now := rfl

/-! ## Booking claim theorems -/

theorem createBooking_ok_ticketTypes (uid : Nat) {s : DBState} {req : BookingReq}
    {eid : Nat} {amt : Int} {items : List TicketItem}
    (hv : bookingValidate s req = .ok (eid, amt, items)) :
    (createBooking s uid req).2.ticketTypes =
      s.ticketTypes.map (fun tt => { tt with remaining := tt.remaining - sumQ items tt.id }) := by
  rw [createBooking, hv]
  show (confirmBooking (items.foldl (processItem s.nextId) ⟨s.events, s.ticketTypes,
      s.bookings ++ [⟨s.nextId, uid, eid, req.name, req.email, req.phone, amt, .pending, none⟩],
      s.tickets, s.nextId + 1⟩) s.nextId).ticketTypes = _
  exact txnFold_ticketTypes s.nextId _ items

theorem bookingValidate_error_of_bad {s : DBState} {req : BookingReq}
    (hbad : ∃ it ∈ req.tickets, badItem s.ticketTypes it = true) :
    ∃ e, bookingValidate s req = .error e := by
  rw [bookingValidate]
  cases heid : req.eventId with
  | none => exact ⟨.missingFields, rfl⟩
  | some eid =>
    show (∃ e, (if req.name = "" ∨ req.email = "" ∨ req.phone = "" ∨ req.tickets = []
      then Except.error BookingErr.missingFields else _) = Except.error e)
    by_cases hmf : req.name = "" ∨ req.email = "" ∨ req.phone = "" ∨ req.tickets = []
    · rw [if_pos hmf]
      exact ⟨.missingFields, rfl⟩
    · rw [if_neg hmf]
      cases hev : evPubOf s.events eid with
      | none => exact ⟨.eventNotFound, rfl⟩
      | some e0 =>
        obtain ⟨e, he⟩ := validateItems_error_of_bad hbad
        rw [he]
        exact ⟨e, rfl⟩

/-- C3: if any requested item cannot be reserved — falsy or unknown ticket
type, quantity below one, or insufficient remaining — the entire booking fails
and the state (hence every ticket type's inventory) is unchanged. -/
theorem createBooking_all_or_nothing (s : DBState) (uid : Nat) (req : BookingReq)
    (hbad : ∃ it ∈ req.tickets, badItem s.ticketTypes it = true) :
    ∃ e, createBooking s uid req = (.error e, s) := by
  obtain ⟨e, he⟩ := bookingValidate_error_of_bad hbad
  rw [createBooking, he]
  exact ⟨e, rfl⟩

/-- C3 witness: one satisfiable request plus one unsatisfiable quantity leaves
the state — including the satisfiable type's inventory — untouched. -/
theorem createBooking_all_or_nothing_witness :
    (∃ it ∈ (⟨some 1, "a", "b", "c", [⟨some 2, 1⟩, ⟨some 2, 2⟩]⟩ : BookingReq).tickets,
      badItem wState.ticketTypes it = true) ∧
    (∃ e, createBooking wState 5 ⟨some 1, "a", "b", "c", [⟨some 2, 1⟩, ⟨some 2, 2⟩]⟩ =
      (.error e, wState)) :=
  ⟨by decide,
    createBooking_all_or_nothing wState 5 ⟨some 1, "a", "b", "c", [⟨some 2, 1⟩, ⟨some 2, 2⟩]⟩
      (by decide)⟩

/-- A conservation-consistent fixture: capacity 2, one active ticket sold,
one remaining. -/
def wTypeInv : TicketType := ⟨2, 1, 10, 2, 1⟩

/-- A state satisfying the reachable-state invariant. -/
def wStateInv : DBState := ⟨[wEvent], [wTypeInv], [wBooking], [wTicket], 10⟩

/-- A well-formed single-item booking request. -/
def wOkReq : BookingReq := ⟨some 1, "a", "b", "c", [⟨some 2, 1⟩]⟩

/-- A request listing the same ticket type twice. -/
def wDupReq : BookingReq := ⟨some 1, "a", "b", "c", [⟨some 2, 1⟩, ⟨some 2, 1⟩]⟩

theorem cancelBooking_ticketTypes_cases (s : DBState) (bid actorId : Nat)
    (admin : Bool) (action : String) :
    (cancelBooking s bid actorId admin action).2.ticketTypes = s.ticketTypes ∨
    (∃ b, bkOf s.bookings bid = some b ∧ b.status ≠ .cancelled ∧
      (cancelBooking s bid actorId admin action).2.ticketTypes =
        s.ticketTypes.map
          (fun tt => { tt with remaining := tt.remaining + (countBt s.tickets tt.id bid : Int) })) := by
  by_cases hact : action ≠ "cancel"
  · rw [cancelBooking, if_pos hact]
    exact Or.inl rfl
  · have haction : action = "cancel" := not_not.mp hact
    subst haction
    cases hb : bkOf s.bookings bid with
    | none =>
      rw [cancelBooking, if_neg hact, hb]
      exact Or.inl rfl
    | some b =>
      by_cases hp : b.userId ≠ actorId ∧ admin = false
      · rw [cancelBooking, if_neg hact, hb]
        simp only [if_pos hp]
        exact Or.inl trivial
      · by_cases hst : b.status = .cancelled
        · rw [cancelBooking, if_neg hact, hb]
          simp only [if_neg hp, if_pos hst]
          exact Or.inl trivial
        · have hperm : b.userId = actorId ∨ admin = true := by
            rcases not_and_or.mp hp with h | h
            · exact Or.inl (not_not.mp h)
            · cases admin with
              | false => exact absurd rfl h
              | true => exact Or.inr rfl
          exact Or.inr ⟨b, rfl, hst, (cancelBooking_success hb hperm hst).2.2.2.2.2⟩

/-- C2 counterexample: the availability check reads `remaining` before the
transaction and the transaction decrements unconditionally, so the check and
the decrement are not one atomic step: a single booking request listing the
same ticket type twice passes both checks against the unchanged pre-state and
then decrements twice, driving `remaining` to `-1 < 0` — sequentially, with no
concurrency at all. -/
theorem reserve_nonatomic_negative_remaining_counterexample :
    RemNonneg wState ∧ RemLeQty wState ∧
    (createBooking wState 5 wDupReq).1 = .ok 10 ∧
    ttOf (createBooking wState 5 wDupReq).2.ticketTypes 2 = some ⟨2, 1, 10, 1, -1⟩ ∧
    ¬ RemNonneg (createBooking wState 5 wDupReq).2 := by
  decide

/-- C2 amended: the reservation check is made against the pre-transaction
state and the decrement is applied unconditionally inside the transaction, so
`0 ≤ remaining ≤ quantity` is preserved only for sequential executions of
`createBooking` whose items reference pairwise-distinct ticket types (a
duplicate-type request, or concurrent requests, can drive `remaining`
negative); `cancelBooking`'s uncapped increments preserve the bounds on states
satisfying the active-ticket conservation invariant. -/
theorem inventory_bounds_preserved (s : DBState) (uid : Nat) (req : BookingReq)
    (bid actorId : Nat) (admin : Bool)
    (hTT : TTUnique s) (hlo : RemNonneg s) (hhi : RemLeQty s) :
    ((req.tickets.map (fun it => it.ticketTypeId)).Pairwise (fun a b => a ≠ b) →
      RemNonneg (createBooking s uid req).2 ∧ RemLeQty (createBooking s uid req).2) ∧
    (InvS s →
      RemNonneg (cancelBooking s bid actorId admin "cancel").2 ∧
      RemLeQty (cancelBooking s bid actorId admin "cancel").2) := by
  constructor
  · intro hdist
    cases hv : bookingValidate s req with
    | error e =>
      rw [createBooking, hv]
      exact ⟨hlo, hhi⟩
    | ok res =>
      obtain ⟨eid, amt, items⟩ := res
      obtain ⟨-, hval⟩ := bookingValidate_ok hv
      have hmem := validateItems_ok_mem hval
      have hq : ∀ it ∈ items, 0 ≤ it.quantity := by
        intro it hit
        have := (hmem it hit).1
        omega
      have hdist' : items.Pairwise (fun a b => a.ticketTypeId ≠ b.ticketTypeId) := by
        have hids := validateItems_ok_ids hval
        rw [← hids] at hdist
        rw [List.pairwise_map] at hdist
        exact hdist.imp (fun h hc => h (congrArg some hc))
      have hshape := createBooking_ok_ticketTypes uid hv
      constructor
      · intro tt' hm
        rw [hshape] at hm
        obtain ⟨tt, htt, htteq⟩ := List.mem_map.mp hm
        have hrem : tt'.remaining = tt.remaining - sumQ items tt.id := by rw [← htteq]
        rw [hrem]
        by_cases hex : ∃ it ∈ items, it.ticketTypeId = tt.id
        · obtain ⟨it, hit, hide⟩ := hex
          have hsq : sumQ items tt.id = it.quantity := by
            rw [← hide]
            exact sumQ_of_distinct hdist' hit
          obtain ⟨-, tt0, htt0, hr0⟩ := hmem it hit
          have : ttOf s.ticketTypes tt.id = some tt := ttOf_of_mem_unique hTT htt
          rw [hide, this] at htt0
          cases htt0
          rw [hsq]
          omega
        · push_neg at hex
          rw [sumQ_eq_zero hex]
          have := hlo tt htt
          omega
      · intro tt' hm
        rw [hshape] at hm
        obtain ⟨tt, htt, htteq⟩ := List.mem_map.mp hm
        have hrem : tt'.remaining = tt.remaining - sumQ items tt.id := by rw [← htteq]
        have hqty : tt'.quantity = tt.quantity := by rw [← htteq]
        rw [hrem, hqty]
        have h1 := sumQ_nonneg hq tt.id
        have h2 := hhi tt htt
        omega
  · intro hinv
    rcases cancelBooking_ticketTypes_cases s bid actorId admin "cancel" with h | h
    · constructor
      · intro tt' hm
        rw [h] at hm
        exact hlo tt' hm
      · intro tt' hm
        rw [h] at hm
        exact hhi tt' hm
    · obtain ⟨b, hb, hst, hshape⟩ := h
      have hactive : isActive s.bookings bid = true := by
        rw [isActive, hb]
        simp [hst]
      constructor
      · intro tt' hm
        rw [hshape] at hm
        obtain ⟨tt, htt, htteq⟩ := List.mem_map.mp hm
        have hrem : tt'.remaining = tt.remaining + (countBt s.tickets tt.id bid : Int) := by
          rw [← htteq]
        rw [hrem]
        have := hlo tt htt
        have hc : (0 : Int) ≤ (countBt s.tickets tt.id bid : Int) := Int.natCast_nonneg _
        omega
      · intro tt' hm
        rw [hshape] at hm
        obtain ⟨tt, htt, htteq⟩ := List.mem_map.mp hm
        have hrem : tt'.remaining = tt.remaining + (countBt s.tickets tt.id bid : Int) := by
          rw [← htteq]
        have hqty : tt'.quantity = tt.quantity := by rw [← htteq]
        rw [hrem, hqty]
        have hcons := hinv.1 tt htt
        have hle := countBt_le_activeCount hactive s.tickets tt.id
        omega

/-- C2 amended witness: bounds preserved by a distinct-item booking and by a
cancellation on an invariant-satisfying state. -/
theorem inventory_bounds_preserved_witness :
    TTUnique wStateInv ∧ RemNonneg wStateInv ∧ RemLeQty wStateInv ∧
    (wOkReq.tickets.map (fun it => it.ticketTypeId)).Pairwise (fun a b => a ≠ b) ∧
    (RemNonneg (createBooking wStateInv 5 wOkReq).2 ∧
      RemLeQty (createBooking wStateInv 5 wOkReq).2) ∧
    InvS wStateInv ∧
    (RemNonneg (cancelBooking wStateInv 3 5 false "cancel").2 ∧
      RemLeQty (cancelBooking wStateInv 3 5 false "cancel").2) :=
  ⟨by decide, by decide, by decide, by decide,
    (inventory_bounds_preserved wStateInv 5 wOkReq 3 5 false (by decide) (by decide)
      (by decide)).1 (by decide),
    by decide,
    (inventory_bounds_preserved wStateInv 5 wOkReq 3 5 false (by decide) (by decide)
      (by decide)).2 (by decide)⟩

/-- C5: cancelling a not-yet-cancelled booking as its owner or an admin
succeeds, sets the status to `CANCELLED`, and increments each ticket type's
`remaining` by exactly the booking's ticket count of that type, issued as one
batched increment per distinct type (the grouped count list has pairwise
distinct keys); cancelling an already-`CANCELLED` booking returns an error and
leaves the state unchanged. -/
theorem cancelBooking_spec (s : DBState) (bid actorId : Nat) (admin : Bool)
    (b : Booking) (hb : bkOf s.bookings bid = some b)
    (hperm : b.userId = actorId ∨ admin = true) :
    (b.status ≠ .cancelled →
      (cancelBooking s bid actorId admin "cancel").1 = .ok () ∧
      (∃ b', bkOf (cancelBooking s bid actorId admin "cancel").2.bookings bid = some b' ∧
        b'.status = .cancelled) ∧
      (∀ i, ttOf (cancelBooking s bid actorId admin "cancel").2.ticketTypes i =
        (ttOf s.ticketTypes i).map
          (fun tt => { tt with remaining := tt.remaining + (countBt s.tickets i bid : Int) })) ∧
      (ticketTypeCounts (ticketsOfBooking s.tickets bid)).Pairwise (fun a c => a.1 ≠ c.1)) ∧
    (b.status = .cancelled →
      cancelBooking s bid actorId admin "cancel" = (.error .alreadyCancelled, s)) := by
  have hp : ¬ (b.userId ≠ actorId ∧ admin = false) := by
    rcases hperm with h | h
    · exact fun hc => hc.1 h
    · exact fun hc => by rw [h] at hc; exact Bool.noConfusion hc.2
  constructor
  · intro hst
    obtain ⟨h1, h2, h3, h4, h5, h6⟩ := cancelBooking_success hb hperm hst
    refine ⟨h1, ?_, ?_, ticketTypeCounts_keys_distinct _⟩
    · rw [h2, bkOf_updateBk (fun bb => { bb with status := .cancelled }) (fun _ => rfl),
        if_pos rfl, hb, Option.map_some']
      exact ⟨_, rfl, rfl⟩
    · intro i
      rw [h6, ttOf_map
        (fun tt => { tt with remaining := tt.remaining + (countBt s.tickets tt.id bid : Int) })
        (fun _ => rfl)]
      cases hiv : ttOf s.ticketTypes i with
      | none => rfl
      | some tt =>
        rw [Option.map_some', Option.map_some', ttOf_id hiv]
  · intro hst
    have hact : ¬ ("cancel" ≠ "cancel") := fun hc => hc rfl
    rw [cancelBooking, if_neg hact, hb]
    simp only [if_neg hp, if_pos hst]

/-- A state whose booking is already cancelled. -/
def wBookingC : Booking := ⟨3, 5, 1, "n", "e", "p", 10, .cancelled, none⟩

/-- State with an already-cancelled booking. -/
def wStateCX : DBState := ⟨[wEvent], [wTypeInv], [wBookingC], [wTicket], 10⟩

/-- C5 witness: a concrete cancellation restores inventory per type and a
second cancellation errors with no change. -/
theorem cancelBooking_spec_witness :
    bkOf wStateInv.bookings 3 = some wBooking ∧
    (wBooking.userId = 5 ∨ false = true) ∧ wBooking.status ≠ .cancelled ∧
    (cancelBooking wStateInv 3 5 false "cancel").1 = .ok () ∧
    (∀ i, ttOf (cancelBooking wStateInv 3 5 false "cancel").2.ticketTypes i =
      (ttOf wStateInv.ticketTypes i).map
        (fun tt => { tt with remaining := tt.remaining + (countBt wStateInv.tickets i 3 : Int) })) ∧
    wBookingC.status = .cancelled ∧
    cancelBooking wStateCX 3 5 false "cancel" = (.error .alreadyCancelled, wStateCX) :=
  ⟨by decide, by decide, by decide,
    ((cancelBooking_spec wStateInv 3 5 false wBooking (by decide) (by decide)).1
      (by decide)).1,
    ((cancelBooking_spec wStateInv 3 5 false wBooking (by decide) (by decide)).1
      (by decide)).2.2.1,
    by decide,
    (cancelBooking_spec wStateCX 3 5 false wBookingC (by decide) (by decide)).2 (by decide)⟩

/-- A fresh state with capacity 1 and nothing sold. -/
def wState4 : DBState := ⟨[wEvent], [wType], [], [], 10⟩

/-- C4 counterexample: the transaction covers only reserve + create-PENDING +
mint; the `CONFIRMED` transition is a separate later update. The state after
the transaction commits — which persists if execution fails before the second
update — holds a `PENDING` booking with already-decremented inventory, so the
four-step sequence is not one atomic unit. -/
theorem createBooking_confirm_outside_txn_counterexample :
    (createBookingInterrupted wState4 5 wOkReq).1 = .ok 10 ∧
    bkOf (createBookingInterrupted wState4 5 wOkReq).2.bookings 10 =
      some ⟨10, 5, 1, "a", "b", "c", 10, .pending, none⟩ ∧
    ttOf (createBookingInterrupted wState4 5 wOkReq).2.ticketTypes 2 =
      some ⟨2, 1, 10, 1, 0⟩ ∧
    ttOf wState4.ticketTypes 2 = some ⟨2, 1, 10, 1, 1⟩ := by
  decide

/-- C4 amended: a validated `createBooking` executes reserve + create-PENDING +
mint as one atomic transaction and then flips the booking to `CONFIRMED` in a
separate update: the full run returns the new booking `CONFIRMED` with each
type's `remaining` decremented by its requested total and one ticket minted per
unit; the run interrupted between the two steps leaves the same decrements and
minted tickets but the booking still `PENDING`. -/
theorem createBooking_effects (s : DBState) (uid : Nat) (req : BookingReq)
    (eid : Nat) (amt : Int) (items : List TicketItem)
    (hv : bookingValidate s req = .ok (eid, amt, items)) (hw : WFIds s) :
    (createBooking s uid req).1 = .ok s.nextId ∧
    (∃ b, bkOf (createBooking s uid req).2.bookings s.nextId = some b ∧
      b.status = .confirmed) ∧
    (∀ i, ttOf (createBooking s uid req).2.ticketTypes i =
      (ttOf s.ticketTypes i).map
        (fun tt => { tt with remaining := tt.remaining - sumQ items i })) ∧
    (∀ i, countBt (createBooking s uid req).2.tickets i s.nextId = sumQN items i) ∧
    (createBookingInterrupted s uid req).1 = .ok s.nextId ∧
    (∃ b, bkOf (createBookingInterrupted s uid req).2.bookings s.nextId = some b ∧
      b.status = .pending) ∧
    (∀ i, ttOf (createBookingInterrupted s uid req).2.ticketTypes i =
      (ttOf s.ticketTypes i).map
        (fun tt => { tt with remaining := tt.remaining - sumQ items i })) := by
  obtain ⟨hbk, htk⟩ := hw
  have hb0of : bkOf (s.bookings ++
      [⟨s.nextId, uid, eid, req.name, req.email, req.phone, amt, .pending, none⟩])
      s.nextId = some ⟨s.nextId, uid, eid, req.name, req.email, req.phone, amt, .pending, none⟩ := by
    rw [bkOf_append, bkOf_none_of_lt hbk]
    simp [bkOf]
  have httgen : ∀ (l : List TicketType) (i : Nat),
      ttOf (l.map (fun tt => { tt with remaining := tt.remaining - sumQ items tt.id })) i =
        (ttOf l i).map (fun tt => { tt with remaining := tt.remaining - sumQ items i }) := by
    intro l i
    rw [ttOf_map (fun tt => { tt with remaining := tt.remaining - sumQ items tt.id })
      (fun _ => rfl)]
    cases hiv : ttOf l i with
    | none => rfl
    | some tt => rw [Option.map_some', Option.map_some', ttOf_id hiv]
  refine ⟨?_, ?_, ?_, ?_, ?_, ?_, ?_⟩
  · rw [createBooking, hv]
    rfl
  · rw [createBooking, hv]
    show ∃ b, bkOf (confirmBooking (items.foldl (processItem s.nextId)
      ⟨s.events, s.ticketTypes, s.bookings ++
        [⟨s.nextId, uid, eid, req.name, req.email, req.phone, amt, .pending, none⟩],
        s.tickets, s.nextId + 1⟩) s.nextId).bookings s.nextId = some b ∧ b.status = .confirmed
    set sF := items.foldl (processItem s.nextId)
      (⟨s.events, s.ticketTypes, s.bookings ++
        [⟨s.nextId, uid, eid, req.name, req.email, req.phone, amt, .pending, none⟩],
        s.tickets, s.nextId + 1⟩ : DBState) with hsF
    show ∃ b, bkOf (updateBk sF.bookings s.nextId
      (fun bb => { bb with status := .confirmed, paymentId := some sF.nextId }))
      s.nextId = some b ∧ b.status = .confirmed
    rw [txnFold_bookings,
      bkOf_updateBk (fun bb => { bb with status := .confirmed, paymentId := some sF.nextId })
        (fun _ => rfl), if_pos rfl]
    show ∃ b, (bkOf (s.bookings ++
      [⟨s.nextId, uid, eid, req.name, req.email, req.phone, amt, .pending, none⟩])
      s.nextId).map _ = some b ∧ b.status = .confirmed
    rw [hb0of, Option.map_some']
    exact ⟨_, rfl, rfl⟩
  · intro i
    rw [createBooking_ok_ticketTypes uid hv, httgen]
  · intro i
    rw [createBooking, hv]
    show countBt (items.foldl (processItem s.nextId)
      ⟨s.events, s.ticketTypes, s.bookings ++
        [⟨s.nextId, uid, eid, req.name, req.email, req.phone, amt, .pending, none⟩],
        s.tickets, s.nextId + 1⟩).tickets i s.nextId = sumQN items i
    rw [txnFold_countBt, if_pos rfl]
    have hz : countBt s.tickets i s.nextId = 0 :=
      countBt_eq_zero (fun t ht => Nat.ne_of_lt (htk t ht)) i
    show countBt s.tickets i s.nextId + sumQN items i = sumQN items i
    rw [hz]
    omega
  · rw [createBookingInterrupted, hv]
    rfl
  · rw [createBookingInterrupted, hv]
    show ∃ b, bkOf (items.foldl (processItem s.nextId)
      ⟨s.events, s.ticketTypes, s.bookings ++
        [⟨s.nextId, uid, eid, req.name, req.email, req.phone, amt, .pending, none⟩],
        s.tickets, s.nextId + 1⟩).bookings s.nextId = some b ∧ b.status = .pending
    rw [txnFold_bookings]
    show ∃ b, bkOf (s.bookings ++
      [⟨s.nextId, uid, eid, req.name, req.email, req.phone, amt, .pending, none⟩])
      s.nextId = some b ∧ b.status = .pending
    rw [hb0of]
    exact ⟨_, rfl, rfl⟩
  · intro i
    rw [createBookingInterrupted, hv]
    show ttOf (items.foldl (processItem s.nextId)
      ⟨s.events, s.ticketTypes, s.bookings ++
        [⟨s.nextId, uid, eid, req.name, req.email, req.phone, amt, .pending, none⟩],
        s.tickets, s.nextId + 1⟩).ticketTypes i = _
    rw [txnFold_ticketTypes]
    exact httgen s.ticketTypes i

/-- C4 amended witness at a concrete valid request. -/
theorem createBooking_effects_witness :
    bookingValidate wState4 wOkReq = .ok (1, 10, [⟨2, 1, 10⟩]) ∧ WFIds wState4 ∧
    (createBooking wState4 5 wOkReq).1 = .ok 10 ∧
    (∃ b, bkOf (createBooking wState4 5 wOkReq).2.bookings 10 = some b ∧
      b.status = .confirmed) ∧
    (∃ b, bkOf (createBookingInterrupted wState4 5 wOkReq).2.bookings 10 = some b ∧
      b.status = .pending) :=
  ⟨by decide, by decide,
    (createBooking_effects wState4 5 wOkReq 1 10 [⟨2, 1, 10⟩] (by decide) (by decide)).1,
    (createBooking_effects wState4 5 wOkReq 1 10 [⟨2, 1, 10⟩] (by decide) (by decide)).2.1,
    (createBooking_effects wState4 5 wOkReq 1 10 [⟨2, 1, 10⟩] (by decide) (by decide)).2.2.2.2.2.1⟩

/-- A capacity-10 type with 8 sold and 2 remaining. -/
def wState8 : DBState := ⟨[wEvent], [⟨2, 1, 10, 10, 2⟩], [], [], 10⟩

/-- C8 counterexample: the capacity edit recomputes
`remaining += newQuantity - oldQuantity` with no failure and no clamping, so
shrinking capacity from 10 to 5 with only 2 remaining succeeds and drives
`remaining` to `-3 < 0`. -/
theorem adjustTotal_negative_remaining_counterexample :
    ttOf wState8.ticketTypes 2 = some ⟨2, 1, 10, 10, 2⟩ ∧
    (adjustTotal wState8 2 7 true false 5).1 = .ok () ∧
    ttOf (adjustTotal wState8 2 7 true false 5).2.ticketTypes 2 =
      some ⟨2, 1, 10, 5, -3⟩ := by
  decide

/-- C8 amended: an authorized capacity edit with a truthy new quantity always
succeeds and recomputes `remaining := remaining + (newQuantity - oldQuantity)`
unconditionally — no failure and no clamping guard against `remaining` going
negative relative to already-sold tickets. -/
theorem adjustTotal_unclamped (s : DBState) (ttid actorId : Nat) (newQuantity : Int)
    (tt : TicketType) (htt : ttOf s.ticketTypes ttid = some tt) (hq : newQuantity ≠ 0) :
    (adjustTotal s ttid actorId true true newQuantity).1 = .ok () ∧
    ttOf (adjustTotal s ttid actorId true true newQuantity).2.ticketTypes ttid =
      some { tt with quantity := newQuantity
                     remaining := tt.remaining + (newQuantity - tt.quantity) } := by
  rw [adjustTotal]
  have h1 : ¬ ((true : Bool) = false) := by simp
  rw [if_neg h1, htt]
  simp only [Bool.true_eq_false, and_false, if_false]
  constructor
  · trivial
  · show ttOf (updateTT s.ticketTypes ttid _) ttid = _
    rw [updateTT_eq_map,
      ttOf_map (fun t => if t.id = ttid then
        ({ t with quantity := if newQuantity ≠ 0 then newQuantity else t.quantity
                  remaining := t.remaining +
                    (if newQuantity ≠ 0 then newQuantity - tt.quantity else 0) } : TicketType)
        else t) ?hg, htt, Option.map_some']
    case hg =>
      intro t
      by_cases h : t.id = ttid <;> simp [h]
    rw [if_pos (ttOf_id htt), if_pos hq, if_pos hq]

/-- C8 amended witness. -/
theorem adjustTotal_unclamped_witness :
    ttOf wState8.ticketTypes 2 = some ⟨2, 1, 10, 10, 2⟩ ∧ (5 : Int) ≠ 0 ∧
    (adjustTotal wState8 2 7 true true 5).1 = .ok () ∧
    ttOf (adjustTotal wState8 2 7 true true 5).2.ticketTypes 2 =
      some ⟨2, 1, 10, 5, -3⟩ :=
  ⟨by decide, by decide,
    (adjustTotal_unclamped wState8 2 7 5 ⟨2, 1, 10, 10, 2⟩ (by decide) (by decide)).1,
    (adjustTotal_unclamped wState8 2 7 5 ⟨2, 1, 10, 10, 2⟩ (by decide) (by decide)).2⟩

/-- A consistent empty-sales state with capacity 2. -/
def wState9 : DBState := ⟨[wEvent], [⟨2, 1, 10, 2, 2⟩], [], [], 10⟩

/-- C9 counterexample: a cancellation increments `remaining` but does not
delete the booking's ticket rows, so after create-then-cancel the count of ALL
ticket rows of the type plus `remaining` exceeds `quantity` — the conservation
law as stated fails outside the blocked delete-has-sales case. -/
theorem conservation_all_tickets_counterexample :
    (∀ tt ∈ wState9.ticketTypes,
      (countT wState9.tickets tt.id : Int) + tt.remaining = tt.quantity) ∧
    InvS wState9 ∧
    ¬ (∀ tt ∈ (runOps wState9 [.create 5 wOkReq, .cancel 10 5 false]).ticketTypes,
      (countT (runOps wState9 [.create 5 wOkReq, .cancel 10 5 false]).tickets tt.id : Int) +
        tt.remaining = tt.quantity) := by
  decide

theorem runOps_preserves_InvS : ∀ (ops : List CoreOp) (s : DBState),
    InvS s → InvS (runOps s ops)
  | [], _, hinv => hinv
  | hd :: rest, s, hinv => by
    rw [runOps, List.foldl_cons]
    have h1 : InvS (applyOp s hd) := by
      cases hd with
      | create uid req => exact createBooking_preserves_InvS s uid req hinv
      | cancel bid a adm => exact cancelBooking_preserves_InvS s bid a adm "cancel" hinv
    exact runOps_preserves_InvS rest (applyOp s hd) h1

/-- C9 amended: with the ticket count restricted to tickets whose booking is
not `CANCELLED`, the conservation law — active tickets of a type plus its
`remaining` equals its `quantity` — holds after any sequence of `createBooking`
and `cancelBooking` operations from a state satisfying the reachable-state
invariant (cancelled bookings keep their ticket rows, so the all-rows version
fails; see the counterexample). -/
theorem active_conservation_runOps (s : DBState) (ops : List CoreOp)
    (hinv : InvS s) : Conserv (runOps s ops) :=
  (runOps_preserves_InvS ops s hinv).1

/-- C9 amended witness on the create-then-cancel sequence. -/
theorem active_conservation_runOps_witness :
    InvS wState9 ∧ Conserv (runOps wState9 [.create 5 wOkReq, .cancel 10 5 false]) :=
  ⟨by decide,
    active_conservation_runOps wState9 [.create 5 wOkReq, .cancel 10 5 false] (by decide)⟩
